import Mathlib

/-!
Shallow embedding of the Cart & Order Fulfillment Engine of the `nova_backend`
repository (FastAPI + MongoDB + Celery), together with proofs about it.

Conventions of the embedding:
* MongoDB collections are association lists of documents; `update_one` updates
  the first document matching the filter (`updateFirst`), `find_one` is
  `List.find?`.
* Python `float`/`Decimal` money amounts are rationals (`ℚ`); the source
  routes every monetary comparison through `Decimal(str(x))`, which denotes
  the decimal literal exactly, so `ℚ` arithmetic is faithful.
* Mongo integers are `ℤ` (so "stock never negative" is a real statement, not a
  typing accident); pydantic `ge=0` field constraints become explicit validity
  predicates checked where the source runs model validation.
* Fallible handlers return sum/option types; a `none`/error constructor stands
  for a raised exception, produced exactly where the source raises.
-/

namespace Nova

/-- Mirrors `models.Product` (models.py): the fields the core logic reads.
Presentation-only fields (`subtitle`, `currency`, `unit`, `product_img_url`)
are carried by the source model but never branched on; they are omitted. -/
structure Product where
  id : Nat
  name : String
  price : ℚ
  barcode : Option String
  quantity : ℤ
deriving Repr, DecidableEq

/-- Mirrors `models.OrderStatus` (models.py). -/
inductive OrderStatus where
  | pending
  | paid
  | failed
  | completed
deriving Repr, DecidableEq

/-- Mirrors `models.OrderHistoryItem` (models.py): `CheckoutPayload` fields plus
order identity and status. `created_at` is carried but only used for sorting
the history endpoint, which no claim touches; it is omitted. -/
structure OrderDoc where
  order_id : String
  user_identity : String
  items : List Product
  shipping_cost : ℚ
  subtotal : ℚ
  total_cost : ℚ
  status : OrderStatus
deriving Repr, DecidableEq

/-- `collection.update_one(filter, update)`: apply `f` to the first element
satisfying `p`, leave the rest unchanged. -/
def updateFirst (p : α → Bool) (f : α → α) : List α → List α
  | [] => []
  | x :: xs => if p x then f x :: xs else x :: updateFirst p f xs

/-- tasks.py lines 36–39:
`products.update_one({"id": i, "quantity": {"$gte": q}}, {"$inc": {"quantity": -q}})`.
Returns the updated collection and whether a document matched
(`result.matched_count == 1`). -/
def condDecrement (products : List Product) (i : Nat) (q : ℤ) : List Product × Bool :=
  if products.any (fun p => p.id == i && decide (q ≤ p.quantity)) then
    (updateFirst (fun p => p.id == i && decide (q ≤ p.quantity))
      (fun p => { p with quantity := p.quantity - q }) products, true)
  else (products, false)

/-- tasks.py lines 45–48:
`products.update_one({"id": i}, {"$inc": {"quantity": q}})` (unconditional). -/
def incQuantity (products : List Product) (i : Nat) (q : ℤ) : List Product :=
  updateFirst (fun p => p.id == i)
    (fun p => { p with quantity := p.quantity + q }) products

/-- `order_history.find_one({"order_id": oid})`. -/
def findOrder (orders : List OrderDoc) (oid : String) : Option OrderDoc :=
  orders.find? (fun o => o.order_id == oid)

/-- `order_history.update_one({"order_id": oid}, {"$set": {"status": s}})`.
Note the filter names only `order_id`: the update is NOT conditioned on the
current status. -/
def setOrderStatus (orders : List OrderDoc) (oid : String) (s : OrderStatus) :
    List OrderDoc :=
  updateFirst (fun o => o.order_id == oid) (fun o => { o with status := s }) orders

/-- The per-item field constraints pydantic re-checks when the worker runs
`OrderHistoryItem.model_validate(order_data)` (models.py: `price ≥ 0`,
`quantity ≥ 0` on `Product`). -/
def itemValid (p : Product) : Bool :=
  decide (0 ≤ p.quantity) && decide (0 ≤ p.price)

/-- All items of the order satisfy the pydantic field constraints. -/
def orderItemsValid (o : OrderDoc) : Bool :=
  o.items.all itemValid

/-- Everything `OrderHistoryItem.model_validate(order_data)` re-checks: the
per-item constraints plus the `ge=0` fields the order document inherits from
`CheckoutPayload` (the model validator itself already held at creation and is
not re-run on identical data, so it is not modelled as able to fail here). -/
def orderDocValid (o : OrderDoc) : Bool :=
  orderItemsValid o && decide (0 ≤ o.shipping_cost) && decide (0 ≤ o.subtotal)
    && decide (0 ≤ o.total_cost)

/-- The dict `{"status": ..., "message": ...}` returned by `process_order`. -/
structure TaskResult where
  status : String
  message : String
deriving Repr, DecidableEq

/-- tasks.py lines 44–48: the compensation loop re-incrementing every already
decremented item, in insertion order of `updates_to_perform`. -/
def rollback (products : List Product) (done : List Product) : List Product :=
  done.foldl (fun ps u => incQuantity ps u.id u.quantity) products

/-- tasks.py lines 34–52: the reservation loop of `process_order`.  `done` is
`updates_to_perform`.  On an insufficient-stock item the order is first marked
`failed`, then every earlier decrement is compensated. -/
def processItems (oid : String) (orders : List OrderDoc) :
    List Product → List Product → List Product →
    List Product × List OrderDoc × TaskResult
  | products, _, [] =>
    (products, setOrderStatus orders oid OrderStatus.completed,
      ⟨"success", "Inventory updated and order completed."⟩)
  | products, done, item :: rest =>
    match condDecrement products item.id item.quantity with
    | (products1, true) => processItems oid orders products1 (done ++ [item]) rest
    | (products1, false) =>
      (rollback products1 done, setOrderStatus orders oid OrderStatus.failed,
        ⟨"failure", "Insufficient stock for " ++ item.name ++ "."⟩)

/-- tasks.py `process_order(order_id)`: the Inventory Reservation Worker.
The result `none` models the `ValidationError` raised by
`OrderHistoryItem.model_validate` (no store write has happened at that point);
`some r` is the dict the task returns. -/
def process_order (products : List Product) (orders : List OrderDoc) (oid : String) :
    List Product × List OrderDoc × Option TaskResult :=
  match findOrder orders oid with
  | none => (products, orders, some ⟨"failure", "Order not found or not paid."⟩)
  | some od =>
    if od.status ≠ OrderStatus.paid then
      (products, orders, some ⟨"failure", "Order not found or not paid."⟩)
    else if orderDocValid od then
      match processItems oid orders products [] od.items with
      | (ps, os, r) => (ps, os, some r)
    else
      (products, orders, none)

/-- One stored cart line: the `new_item` dict built in cart/routes.py
(`barcode`, `name`, `price`, `quantity`). -/
structure CartLine where
  barcode : String
  name : String
  price : ℚ
  quantity : ℤ
deriving Repr, DecidableEq

/-- One per-user cart document (`{"user_identity": ..., "items": [...]}`). -/
structure CartDoc where
  user_identity : String
  items : List CartLine
deriving Repr, DecidableEq

/-- Modelled from the spec: `CartOpRequest` is imported by cart/routes.py from
models.py but is absent from models.py; spec §4.1/§6 give the request shape
`{barcode, action, quantity}`. -/
structure CartOpRequest where
  barcode : String
  action : String
  quantity : ℤ
deriving Repr, DecidableEq

/-- Modelled from the spec: the request validation pydantic would perform on
the missing `CartOpRequest` model per §4.1 (`action ∈ {add, remove}`,
`quantity > 0`). -/
def CartOpRequest.valid (r : CartOpRequest) : Bool :=
  (r.action == "add" || r.action == "remove") && decide (0 < r.quantity)

/-- Modelled from the spec: `CartOpResponse` (§6 response shape
`{success, message, cart_total_items}`), absent from models.py but fully
determined by its construction sites in cart/routes.py. -/
structure CartOpResponse where
  success : Bool
  message : String
  cart_total_items : ℤ
deriving Repr, DecidableEq

/-- Outcome of the cart endpoint: a structured response, or the HTTP 500 the
`except Exception` wrapper produces from an uncaught `AttributeError`. -/
inductive CartOpOutcome where
  | ok (resp : CartOpResponse)
  | serverError
deriving Repr, DecidableEq

/-- `sum(item.get("quantity", 0) for item in items)`. -/
def cartTotalItems (items : List CartLine) : ℤ :=
  (items.map (fun l => l.quantity)).sum

/-- `carts.find_one({"user_identity": user})`. -/
def findCart (carts : List CartDoc) (user : String) : Option CartDoc :=
  carts.find? (fun c => c.user_identity == user)

/-- cart/routes.py lines 77–80:
`carts.update_one({"user_identity": u, "items.barcode": bc}, {"$inc": {"items.$.quantity": d}})`:
on the first document matching both filter conditions, add `d` to the quantity
of the first array element with that barcode. -/
def incLine (carts : List CartDoc) (user bc : String) (d : ℤ) : List CartDoc :=
  updateFirst
    (fun c => c.user_identity == user && c.items.any (fun l => l.barcode == bc))
    (fun c =>
      let items1 := updateFirst (fun l => l.barcode == bc)
        (fun l => { l with quantity := l.quantity + d }) c.items
      { c with items := items1 }) carts

/-- cart/routes.py lines 89–93:
`carts.update_one({"user_identity": u}, {"$push": {"items": line}}, upsert=True)`:
append the line to the first matching document, or insert a fresh document
when no document matches. -/
def pushLineUpsert (carts : List CartDoc) (user : String) (line : CartLine) :
    List CartDoc :=
  if carts.any (fun c => c.user_identity == user) then
    updateFirst (fun c => c.user_identity == user)
      (fun c => { c with items := c.items ++ [line] }) carts
  else carts ++ [⟨user, [line]⟩]

/-- cart/routes.py lines 97–100:
`carts.update_one({"user_identity": u}, {"$pull": {"items": {"barcode": bc}}})`:
remove EVERY array element with that barcode from the first matching document. -/
def pullLine (carts : List CartDoc) (user bc : String) : List CartDoc :=
  updateFirst (fun c => c.user_identity == user)
    (fun c => { c with items := c.items.filter (fun l => !(l.barcode == bc)) }) carts

/-- cart/routes.py lines 108–116, step 5: refetch the cart and build the
success response carrying the recomputed total; a missing document makes
`updated_cart.get` raise (`serverError`). -/
def cartStep5 (carts1 : List CartDoc) (user : String) (r : CartOpRequest)
    (product : Product) : List CartDoc × CartOpOutcome :=
  match findCart carts1 user with
  | none => (carts1, CartOpOutcome.serverError)
  | some uc =>
    (carts1, CartOpOutcome.ok ⟨true,
      "Cart updated: " ++ r.action ++ " " ++ toString r.quantity ++ "x "
        ++ product.name,
      cartTotalItems uc.items⟩)

/-- cart/routes.py `cart_operation` (POST /api/cart/op), steps 1–5.
`CartOpOutcome.serverError` models the `AttributeError` raised when the code
dereferences a `None` cart (`cart_item.get` in the remove branch, or
`updated_cart.get` after the refetch), caught by the blanket handler as a 500. -/
def cart_operation (products : List Product) (carts : List CartDoc)
    (user : String) (r : CartOpRequest) : List CartDoc × CartOpOutcome :=
  match products.find? (fun p => p.barcode == some r.barcode) with
  | none =>
    (carts, CartOpOutcome.ok ⟨false, "Unknown barcode: " ++ r.barcode, 0⟩)
  | some product =>
    let user_cart : CartDoc := (findCart carts user).getD ⟨user, []⟩
    let cart_item := user_cart.items.find? (fun l => l.barcode == r.barcode)
    if r.action == "add" && decide (product.quantity < r.quantity) then
      (carts, CartOpOutcome.ok ⟨false,
        "Insufficient stock. Available: " ++ toString product.quantity
          ++ ", Requested: " ++ toString r.quantity,
        cartTotalItems user_cart.items⟩)
    else if r.action == "remove"
        && decide ((cart_item.map CartLine.quantity).getD 0 < r.quantity) then
      (carts, CartOpOutcome.ok ⟨false,
        "Not enough items in cart. Available: "
          ++ toString ((cart_item.map CartLine.quantity).getD 0)
          ++ ", Requested: " ++ toString r.quantity,
        cartTotalItems user_cart.items⟩)
    else if r.action == "add" then
      match cart_item with
      | some _ => cartStep5 (incLine carts user r.barcode r.quantity) user r product
      | none =>
        cartStep5
          (pushLineUpsert carts user ⟨r.barcode, product.name, product.price, r.quantity⟩)
          user r product
    else if r.action == "remove" then
      match cart_item with
      | none => (carts, CartOpOutcome.serverError)
      | some ci =>
        if ci.quantity == r.quantity then
          cartStep5 (pullLine carts user r.barcode) user r product
        else cartStep5 (incLine carts user r.barcode (-r.quantity)) user r product
    else cartStep5 carts user r product

/-- Mirrors `models.CheckoutPayload` (items plus client-declared totals). -/
structure CheckoutPayload where
  items : List Product
  shipping_cost : ℚ
  subtotal : ℚ
  total_cost : ℚ
deriving Repr, DecidableEq

/-- models.py lines 102–104: `sum(Decimal(str(item.price)) * Decimal(item.quantity))`. -/
def calculated_subtotal (p : CheckoutPayload) : ℚ :=
  (p.items.map (fun i => i.price * (i.quantity : ℚ))).sum

/-- models.py line 105: `calculated_subtotal + Decimal(str(shipping_cost))`. -/
def calculated_total (p : CheckoutPayload) : ℚ :=
  calculated_subtotal p + p.shipping_cost

/-- models.py 95–122 `validate_and_recalculate_totals`: `some msg` is the
`ValueError` (surfaced as a 422 validation error), `none` means the model
validates.  The interpolated amounts of the source messages are elided. -/
def validate_and_recalculate_totals (p : CheckoutPayload) : Option String :=
  if ¬ (|p.subtotal - calculated_subtotal p| < 1/100) then
    some "Subtotal mismatch."
  else if ¬ (|p.total_cost - calculated_total p| < 1/100) then
    some "Total cost mismatch."
  else none

/-- The pydantic Field constraints of `CheckoutPayload` and its items
(`ge=0` on prices, quantities, shipping, subtotal, total), checked before the
model validator runs. -/
def fieldConstraintsOk (p : CheckoutPayload) : Bool :=
  p.items.all itemValid && decide (0 ≤ p.shipping_cost)
    && decide (0 ≤ p.subtotal) && decide (0 ≤ p.total_cost)

/-- Full request-parse validation of a checkout payload. -/
def checkoutPayloadValid (p : CheckoutPayload) : Bool :=
  fieldConstraintsOk p && (validate_and_recalculate_totals p).isNone

/-- Mirrors `models.VietQRGenerateRequest`. -/
structure VietQRGenerateRequest where
  accountNo : String
  accountName : String
  acqId : ℤ
  amount : ℤ
  addInfo : String
  template : String
deriving Repr, DecidableEq

/-- Python `int(x)` applied to a non-integral number: truncation toward zero
(the fractional part is discarded, not rounded). -/
def pyInt (q : ℚ) : ℤ :=
  if q < 0 then -(⌊-q⌋) else ⌊q⌋

/-- The `config.settings` fields the checkout route reads. -/
structure Settings where
  VIETQR_BANK_BIN : ℤ
  VIETQR_ACCOUNT_NO : String
  VIETQR_ACCOUNT_NAME : String
deriving Repr, DecidableEq

/-- orders/routes.py lines 58–65: the `VietQRGenerateRequest` built for the
provider; `amount=int(pending_order.total_cost)`. -/
def vietqrRequest (s : Settings) (pending : OrderDoc) : VietQRGenerateRequest :=
  { accountNo := s.VIETQR_ACCOUNT_NO
    accountName := s.VIETQR_ACCOUNT_NAME
    acqId := s.VIETQR_BANK_BIN
    amount := pyInt pending.total_cost
    addInfo := "Thanh toan don hang " ++ pending.order_id
    template := "compact2" }

/-- Oracle for the external VietQR HTTP call: each constructor is one
observable behaviour of `client.post` / `raise_for_status` / body parsing. -/
inductive ProviderOutcome where
  /-- 2xx, body parses, `code == "00"`, `data` present: the qr payload string. -/
  | ok (qrCode : String)
  /-- 2xx, body parses, but `code ≠ "00"` or `data` missing; carries `desc`. -/
  | apiError (desc : String)
  /-- `httpx.RequestError`: connection failure or the 10-second timeout. -/
  | requestError
  /-- non-2xx status: `raise_for_status()` raises `httpx.HTTPStatusError`,
  which the route's `except httpx.RequestError` clause does NOT catch. -/
  | non2xx
deriving Repr, DecidableEq

/-- HTTP-level outcome of the checkout route. -/
inductive CheckoutResult where
  /-- 200 with `{order_id, qr_svg}`. -/
  | ok (order_id : String) (qr_svg : String)
  /-- HTTPException 400 (empty cart). -/
  | badRequest (detail : String)
  /-- 422: pydantic rejected the payload before the route body ran. -/
  | unprocessable (detail : String)
  /-- HTTPException 503. -/
  | serviceUnavailable (detail : String)
  /-- an exception the route does not catch (generic 500, not 503). -/
  | uncaughtError
deriving Repr, DecidableEq

/-- orders/routes.py lines 48–54: the pending order document persisted before
the provider call (`status = pending`, totals exactly as validated). -/
def pendingOrder (user : String) (p : CheckoutPayload) (oid : String) : OrderDoc :=
  { order_id := oid
    user_identity := user
    items := p.items
    shipping_cost := p.shipping_cost
    subtotal := p.subtotal
    total_cost := p.total_cost
    status := OrderStatus.pending }

/-- orders/routes.py `initiate_checkout_and_generate_qr`, body after payload
parsing.  `oid` is the fresh `uuid4`, `svg` abstracts the in-memory SVG
rendering of the provider's qr payload, `provider` is the HTTP-call oracle. -/
def checkoutBody (s : Settings) (svg : String → String) (orders : List OrderDoc)
    (user : String) (p : CheckoutPayload) (oid : String)
    (provider : VietQRGenerateRequest → ProviderOutcome) :
    List OrderDoc × CheckoutResult :=
  if p.items.isEmpty then
    (orders, CheckoutResult.badRequest "Cannot checkout with an empty cart")
  else
    let pending := pendingOrder user p oid
    let orders1 := orders ++ [pending]
    match provider (vietqrRequest s pending) with
    | ProviderOutcome.ok qrCode => (orders1, CheckoutResult.ok oid (svg qrCode))
    | ProviderOutcome.apiError desc =>
      (orders1, CheckoutResult.serviceUnavailable ("Failed to generate QR code: " ++ desc))
    | ProviderOutcome.requestError =>
      (orders1, CheckoutResult.serviceUnavailable "Could not connect to the payment QR service.")
    | ProviderOutcome.non2xx => (orders1, CheckoutResult.uncaughtError)

/-- The checkout endpoint as the client sees it: pydantic validation of the
payload (which creates nothing on failure), then the route body. -/
def initiate_checkout (s : Settings) (svg : String → String) (orders : List OrderDoc)
    (user : String) (p : CheckoutPayload) (oid : String)
    (provider : VietQRGenerateRequest → ProviderOutcome) :
    List OrderDoc × CheckoutResult :=
  if checkoutPayloadValid p then checkoutBody s svg orders user p oid provider
  else (orders, CheckoutResult.unprocessable "Invalid checkout payload")

/-- Mirrors `models.VietQRTransactionState`. -/
inductive VietQRTransactionState where
  | SUCCESS
  | FAILED
deriving Repr, DecidableEq

/-- Mirrors `models.VietQRWebhookPayload` (models.py lines 146–154). -/
structure VietQRWebhookPayload where
  paymentRequestId : String
  state : VietQRTransactionState
  amount : ℤ
  description : String
  referenceId : String
  merchantId : String
  extraData : String
  signature : String
deriving Repr, DecidableEq

/-- Outcome of the Payment Confirmation Handler. -/
inductive WebhookResult where
  /-- notification rejected (bad signature / unknown order / wrong amount). -/
  | rejected (reason : String)
  /-- order not `pending`: logged no-op, not an error to the caller. -/
  | noop
  /-- verified and applied. -/
  | accepted
deriving Repr, DecidableEq

/-- Modelled from the spec: the Payment Confirmation Handler route is absent
from src (orders/routes.py imports `VietQRWebhookPayload`, `hmac` and
`hashlib` but declares no webhook route).  Behaviour per spec §4.3: verify the
shared-secret MAC of the payload (`mac` abstracts the HMAC computation),
look the order up by `referenceId`, check the amount against what was sent to
the provider, require `pending`; on verified SUCCESS set `paid` and enqueue
the order id for the worker, on verified FAILED set `failed`; every other
case mutates nothing. -/
def handle_webhook (mac : String → VietQRWebhookPayload → String) (secret : String)
    (orders : List OrderDoc) (queue : List String) (p : VietQRWebhookPayload) :
    List OrderDoc × List String × WebhookResult :=
  if mac secret p ≠ p.signature then
    (orders, queue, WebhookResult.rejected "bad signature")
  else
    match findOrder orders p.referenceId with
    | none => (orders, queue, WebhookResult.rejected "unknown order")
    | some od =>
      if p.amount ≠ pyInt od.total_cost then
        (orders, queue, WebhookResult.rejected "wrong amount")
      else if od.status ≠ OrderStatus.pending then
        (orders, queue, WebhookResult.noop)
      else
        match p.state with
        | VietQRTransactionState.SUCCESS =>
          (setOrderStatus orders p.referenceId OrderStatus.paid,
            queue ++ [p.referenceId], WebhookResult.accepted)
        | VietQRTransactionState.FAILED =>
          (setOrderStatus orders p.referenceId OrderStatus.failed,
            queue, WebhookResult.accepted)

/-- The whole backing store plus the durable work queue. -/
structure SysState where
  products : List Product
  carts : List CartDoc
  orders : List OrderDoc
  queue : List String
deriving Repr, DecidableEq

/-- One inbound operation of the engine; the external oracles (provider call,
SVG rendering, MAC) ride along as data so a sequence of operations is closed. -/
inductive Op where
  | cartOp (user : String) (r : CartOpRequest)
  | checkout (s : Settings) (svg : String → String) (user : String)
      (p : CheckoutPayload) (oid : String)
      (provider : VietQRGenerateRequest → ProviderOutcome)
  | webhook (mac : String → VietQRWebhookPayload → String) (secret : String)
      (p : VietQRWebhookPayload)
  | workerRun (oid : String)

/-- Sequential (whole-handler-atomic) semantics of one operation. -/
def applyOp (st : SysState) : Op → SysState
  | Op.cartOp user r =>
    { st with carts := (cart_operation st.products st.carts user r).1 }
  | Op.checkout s svg user p oid provider =>
    { st with orders := (initiate_checkout s svg st.orders user p oid provider).1 }
  | Op.webhook mac secret p =>
    { st with orders := (handle_webhook mac secret st.orders st.queue p).1,
              queue := (handle_webhook mac secret st.orders st.queue p).2.1 }
  | Op.workerRun oid =>
    { st with products := (process_order st.products st.orders oid).1,
              orders := (process_order st.products st.orders oid).2.1 }

/-- A sequence of operations. -/
def applyOps (st : SysState) (ops : List Op) : SysState :=
  ops.foldl applyOp st

/-- Every stored stock quantity is non-negative. -/
def stockNonneg (products : List Product) : Prop :=
  ∀ p ∈ products, 0 ≤ p.quantity

/-- Catalog ids are unique (the `ensure_indexes` unique index on `id`). -/
def NodupIds (ps : List Product) : Prop :=
  (ps.map Product.id).Nodup

/-- Program counter of one in-flight `process_order` run, at the granularity
of individual store calls (each mongo call is atomic; nothing in the task
body between two store calls is). -/
inductive WPhase where
  | start
  | running (done left : List Product)
  | markFailed (done : List Product) (itemName : String)
  | rollingBack (toInc : List Product) (msg : String)
  | finished (res : Option TaskResult)
deriving Repr, DecidableEq

/-- One store-call step of a worker processing order `oid`, mirroring
tasks.py: the fetch/guard/validate (one `find_one`), one conditional
decrement per item, the unconditional `$set status=failed`, one `$inc` per
compensated item, and the final `$set status=completed`. -/
def workerStep (oid : String) (products : List Product) (orders : List OrderDoc) :
    WPhase → List Product × List OrderDoc × WPhase
  | WPhase.start =>
    match findOrder orders oid with
    | none =>
      (products, orders,
        WPhase.finished (some ⟨"failure", "Order not found or not paid."⟩))
    | some od =>
      if od.status ≠ OrderStatus.paid then
        (products, orders,
          WPhase.finished (some ⟨"failure", "Order not found or not paid."⟩))
      else if orderDocValid od then (products, orders, WPhase.running [] od.items)
      else (products, orders, WPhase.finished none)
  | WPhase.running _ [] =>
    (products, setOrderStatus orders oid OrderStatus.completed,
      WPhase.finished (some ⟨"success", "Inventory updated and order completed."⟩))
  | WPhase.running done (item :: rest) =>
    match condDecrement products item.id item.quantity with
    | (products1, true) => (products1, orders, WPhase.running (done ++ [item]) rest)
    | (products1, false) => (products1, orders, WPhase.markFailed done item.name)
  | WPhase.markFailed done itemName =>
    (products, setOrderStatus orders oid OrderStatus.failed,
      WPhase.rollingBack done ("Insufficient stock for " ++ itemName ++ "."))
  | WPhase.rollingBack [] msg =>
    (products, orders, WPhase.finished (some ⟨"failure", msg⟩))
  | WPhase.rollingBack (u :: rest) msg =>
    (incQuantity products u.id u.quantity, orders, WPhase.rollingBack rest msg)
  | WPhase.finished r => (products, orders, WPhase.finished r)

/-- Two concurrent deliveries of the same fulfillment job. -/
structure TwoWorkers where
  products : List Product
  orders : List OrderDoc
  w1 : WPhase
  w2 : WPhase
deriving Repr, DecidableEq

/-- Let the scheduled worker (true = first) take one store-call step. -/
def twoStep (oid : String) (st : TwoWorkers) (first : Bool) : TwoWorkers :=
  if first then
    match workerStep oid st.products st.orders st.w1 with
    | (ps, os, w) => { st with products := ps, orders := os, w1 := w }
  else
    match workerStep oid st.products st.orders st.w2 with
    | (ps, os, w) => { st with products := ps, orders := os, w2 := w }

/-- Run an explicit interleaving of the two workers. -/
def runSchedule (oid : String) (st : TwoWorkers) (sched : List Bool) : TwoWorkers :=
  sched.foldl (twoStep oid) st

/-- Concrete state for the C1 witness. -/
def c1demoState : SysState :=
  { products := [⟨1, "A", 10, some "111", 5⟩]
    carts := []
    orders := [⟨"o1", "u", [⟨1, "A", 10, some "111", 5⟩], 0, 50, 50, OrderStatus.paid⟩]
    queue := [] }

/-- Concrete catalog for the C2 witness: the spec §8 rollback scenario
(A: order qty 5, plenty of stock; B: order qty 3, stock only 2). -/
def c2demoProducts : List Product :=
  [⟨1, "A", 1, none, 10⟩, ⟨2, "B", 1, none, 2⟩]

/-- Concrete paid order for the C2 witness. -/
def c2demoOrder : OrderDoc :=
  ⟨"o2", "u", [⟨1, "A", 1, none, 5⟩, ⟨2, "B", 1, none, 3⟩], 0, 8, 8, OrderStatus.paid⟩

/-- Concrete already-completed order for the C5 witness: re-delivery of the
job for an order the worker has already completed. -/
def c5demoOrder : OrderDoc :=
  ⟨"o5", "u", [⟨1, "A", 10, none, 2⟩], 0, 20, 20, OrderStatus.completed⟩

/-- Item list of the spec §8 "total integrity" example. -/
def c3demoItems : List Product := [⟨1, "X", 10, none, 2⟩]

/-- The example payload with correct declared totals. -/
def c3demoOk : CheckoutPayload := ⟨c3demoItems, 5, 20, 25⟩

/-- The example payload with the tampered declared subtotal `19.99`. -/
def c3demoTampered : CheckoutPayload := ⟨c3demoItems, 5, 1999/100, 25⟩

/-- Concrete payload whose exact total 25.9 exercises truncation. -/
def c10demoPayload : CheckoutPayload := ⟨[⟨1, "X", 259/20, none, 2⟩], 0, 259/10, 259/10⟩

/-- Discriminator: is the result the 503 service-unavailable error? -/
def CheckoutResult.isServiceUnavailable : CheckoutResult → Bool
  | CheckoutResult.serviceUnavailable _ => true
  | _ => false

/-- Valid non-empty payload for the C7 scenarios. -/
def c7demoPayload : CheckoutPayload := ⟨[⟨1, "X", 10, none, 2⟩], 5, 20, 25⟩

/-- The forward transition relation of spec §3 on order statuses, with
stutter: `pending → {paid, failed}`, `paid → {completed, failed}`,
`completed` and `failed` terminal. -/
def statusStep (a b : OrderStatus) : Prop :=
  a = b ∨
    (a = OrderStatus.pending ∧ (b = OrderStatus.paid ∨ b = OrderStatus.failed)) ∨
    (a = OrderStatus.paid ∧ (b = OrderStatus.completed ∨ b = OrderStatus.failed))

/-- The status the store records for an order id. -/
def orderStatusOf (st : SysState) (oid : String) : Option OrderStatus :=
  (findOrder st.orders oid).map OrderDoc.status

/-- Catalog for the racing-workers scenario with stock exactly one order. -/
def c4raceProducts : List Product := [⟨1, "A", 10, none, 5⟩]

/-- Catalog with stock for two copies of the order. -/
def c4raceProducts10 : List Product := [⟨1, "A", 10, none, 10⟩]

/-- A paid order for 5 units of product 1. -/
def c4raceOrder : OrderDoc :=
  ⟨"o4r", "u", [⟨1, "A", 10, none, 5⟩], 0, 50, 50, OrderStatus.paid⟩

/-- Concrete state for the C4 witness. -/
def c4demoState : SysState :=
  ⟨[⟨1, "A", 10, none, 5⟩], [],
    [⟨"o4", "u", [⟨1, "A", 10, none, 5⟩], 0, 50, 50, OrderStatus.paid⟩], []⟩

/-- Pending order awaiting payment confirmation for the C6 witness. -/
def c6demoOrder : OrderDoc :=
  ⟨"o6", "u", [⟨1, "A", 10, none, 5⟩], 0, 50, 50, OrderStatus.pending⟩

/-- A verified SUCCESS notification for that order (the demo MAC appends the
reference id to the secret). -/
def c6demoPayload : VietQRWebhookPayload :=
  ⟨"pr1", VietQRTransactionState.SUCCESS, 50, "d", "o6", "m", "x", "ko6"⟩

/-- The per-cart invariant of spec §8: at most one line per barcode, every
line's quantity strictly positive. -/
def cartLinesOk (c : CartDoc) : Prop :=
  (c.items.map CartLine.barcode).Nodup ∧ ∀ l ∈ c.items, 0 < l.quantity

/-- Catalog for the cart witnesses. -/
def c8demoProducts : List Product := [⟨1, "X", 1, some "b1", 5⟩]

/-- One cart holding two units of barcode `b1`. -/
def c8demoCarts : List CartDoc := [⟨"u", [⟨"b1", "X", 1, 2⟩]⟩]

/-- Catalog and cart for the C9 counterexample and witness. -/
def c9demoProducts : List Product := [⟨1, "X", 1, some "b1", 5⟩]

/-- One cart holding two units of barcode `b1`. -/
def c9demoCarts : List CartDoc := [⟨"u", [⟨"b1", "X", 1, 2⟩]⟩]

theorem updateFirst_forall {α : Type _} {p : α → Bool} {f : α → α} {P : α → Prop} :
    ∀ {l : List α}, (∀ x ∈ l, P x) → (∀ x ∈ l, p x = true → P (f x)) →
    ∀ x ∈ updateFirst p f l, P x := by
  intro l
  induction l with
  | nil => intro _ _ x hx; simp [updateFirst] at hx
  | cons a l ih =>
    intro h hf x hx
    rw [updateFirst] at hx
    by_cases hpa : p a = true
    · rw [if_pos hpa] at hx
      rcases List.mem_cons.mp hx with h1 | h1
      · subst h1; exact hf a (List.mem_cons_self a l) hpa
      · exact h x (List.mem_cons_of_mem _ h1)
    · rw [if_neg hpa] at hx
      rcases List.mem_cons.mp hx with h1 | h1
      · exact h x (List.mem_cons.mpr (Or.inl h1))
      · exact ih (fun y hy => h y (List.mem_cons_of_mem _ hy))
          (fun y hy hp => hf y (List.mem_cons_of_mem _ hy) hp) x h1

theorem map_updateFirst {α β : Type _} (p : α → Bool) (f : α → α) (g : α → β)
    (hg : ∀ x, g (f x) = g x) (l : List α) :
    (updateFirst p f l).map g = l.map g := by
  induction l with
  | nil => rfl
  | cons a l ih =>
    simp only [updateFirst]
    by_cases hpa : p a
    · simp [hpa, hg]
    · simp [hpa, ih]

theorem condDecrement_nonneg (ps : List Product) (i : Nat) (q : ℤ)
    (h : stockNonneg ps) : stockNonneg (condDecrement ps i q).1 := by
  unfold condDecrement
  split
  · intro x hx
    refine updateFirst_forall h ?_ x hx
    intro y _ hpy
    simp only [Bool.and_eq_true, decide_eq_true_eq, beq_iff_eq] at hpy
    simpa using sub_nonneg.mpr hpy.2
  · exact h

theorem incQuantity_nonneg (ps : List Product) (i : Nat) (q : ℤ)
    (hq : 0 ≤ q) (h : stockNonneg ps) : stockNonneg (incQuantity ps i q) := by
  intro x hx
  refine updateFirst_forall h ?_ x hx
  intro y hy _
  simpa using add_nonneg (h y hy) hq

theorem rollback_nonneg (done : List Product) :
    ∀ ps : List Product, stockNonneg ps → (∀ u ∈ done, 0 ≤ u.quantity) →
    stockNonneg (rollback ps done) := by
  induction done with
  | nil => intro ps h _; exact h
  | cons u rest ih =>
    intro ps h hd
    simp only [rollback, List.foldl_cons]
    exact ih _ (incQuantity_nonneg _ _ _ (hd u (by simp)) h)
      (fun v hv => hd v (List.mem_cons_of_mem _ hv))

theorem processItems_nonneg (oid : String) (orders : List OrderDoc) :
    ∀ (items done ps : List Product), stockNonneg ps →
      (∀ u ∈ done, 0 ≤ u.quantity) → (∀ u ∈ items, 0 ≤ u.quantity) →
      stockNonneg (processItems oid orders ps done items).1 := by
  intro items
  induction items with
  | nil => intro done ps h _ _; exact h
  | cons item rest ih =>
    intro done ps h hd hi
    simp only [processItems]
    rcases hcd : condDecrement ps item.id item.quantity with ⟨ps1, b⟩
    have h1 : stockNonneg ps1 := by
      have := condDecrement_nonneg ps item.id item.quantity h
      rwa [hcd] at this
    cases b
    · simp only []
      exact rollback_nonneg done ps1 h1 hd
    · simp only []
      exact ih (done ++ [item]) ps1 h1
        (by
          intro u hu
          rcases List.mem_append.mp hu with hu | hu
          · exact hd u hu
          · simp only [List.mem_singleton] at hu
            subst hu
            exact hi u (by simp))
        (fun u hu => hi u (List.mem_cons_of_mem _ hu))

theorem process_order_nonneg (ps : List Product) (orders : List OrderDoc)
    (oid : String) (h : stockNonneg ps) :
    stockNonneg (process_order ps orders oid).1 := by
  unfold process_order
  rcases hf : findOrder orders oid with _ | od
  · exact h
  · simp only []
    by_cases hst : od.status ≠ OrderStatus.paid
    · rw [if_pos hst]; exact h
    · rw [if_neg hst]
      by_cases hall : orderDocValid od = true
      · simp only [hall, if_true]
        rcases hp : processItems oid orders ps [] od.items with ⟨ps', os', r⟩
        simp only []
        have hvalid : ∀ u ∈ od.items, 0 ≤ u.quantity := by
          intro u hu
          simp only [orderDocValid, orderItemsValid, Bool.and_eq_true] at hall
          have := List.all_eq_true.mp hall.1.1.1 u hu
          simp only [itemValid, Bool.and_eq_true, decide_eq_true_eq] at this
          exact this.1
        have := processItems_nonneg oid orders od.items [] ps h (by simp) hvalid
        rwa [hp] at this
      · simp only [hall, if_false]
        exact h

theorem applyOp_nonneg (st : SysState) (op : Op) (h : stockNonneg st.products) :
    stockNonneg (applyOp st op).products := by
  cases op with
  | cartOp user r => exact h
  | checkout s svg user p oid provider => exact h
  | webhook mac secret p => exact h
  | workerRun oid => exact process_order_nonneg st.products st.orders oid h

theorem applyOps_nonneg (ops : List Op) :
    ∀ st : SysState, stockNonneg st.products →
    stockNonneg (applyOps st ops).products := by
  induction ops with
  | nil => intro st h; exact h
  | cons op rest ih =>
    intro st h
    exact ih (applyOp st op) (applyOp_nonneg st op h)

theorem condDecrement_false {ps ps' : List Product} {i : Nat} {q : ℤ}
    (h : condDecrement ps i q = (ps', false)) : ps' = ps := by
  unfold condDecrement at h
  split at h
  · exact absurd (congrArg Prod.snd h) (by simp)
  · exact (congrArg Prod.fst h).symm

/-- With unique catalog ids, the filter `{"id": i, "quantity": {"$gte": q}}`
(when it matches at all) picks the same document as `{"id": i}`, and
subtracting `q` is adding `-q`. -/
theorem updateFirst_dec_eq_inc {i : Nat} {q : ℤ} :
    ∀ {ps : List Product}, NodupIds ps →
      ps.any (fun p => p.id == i && decide (q ≤ p.quantity)) = true →
      updateFirst (fun p => p.id == i && decide (q ≤ p.quantity))
          (fun p => { p with quantity := p.quantity - q }) ps
        = incQuantity ps i (-q) := by
  intro ps
  induction ps with
  | nil => intro _ h; simp at h
  | cons a l ih =>
    intro hnd hany
    have hndl : NodupIds l := by
      simp only [NodupIds, List.map_cons, List.nodup_cons] at hnd
      exact hnd.2
    have hnotin : a.id ∉ l.map Product.id := by
      simp only [NodupIds, List.map_cons, List.nodup_cons] at hnd
      exact hnd.1
    by_cases hid : (a.id == i) = true
    · by_cases hq : q ≤ a.quantity
      · have hPa : (a.id == i && decide (q ≤ a.quantity)) = true := by
          simp [hid, hq]
        simp only [updateFirst, incQuantity]
        rw [if_pos hPa, if_pos hid, sub_eq_add_neg]
      · exfalso
        have hPa : (a.id == i && decide (q ≤ a.quantity)) = false := by
          simp [hq]
        rw [List.any_cons, hPa, Bool.false_or, List.any_eq_true] at hany
        obtain ⟨x, hx, hPx⟩ := hany
        rw [Bool.and_eq_true, beq_iff_eq] at hPx
        apply hnotin
        rw [beq_iff_eq] at hid
        rw [hid, ← hPx.1]
        exact List.mem_map_of_mem Product.id hx
    · have hPa : (a.id == i && decide (q ≤ a.quantity)) = false := by
        simp [hid]
      have hanyl : l.any (fun p => p.id == i && decide (q ≤ p.quantity)) = true := by
        rw [List.any_cons, hPa, Bool.false_or] at hany
        exact hany
      simp only [updateFirst, incQuantity, hPa, hid, if_false]
      rw [ih hndl hanyl]
      rfl

theorem condDecrement_true {ps ps' : List Product} {i : Nat} {q : ℤ}
    (hnd : NodupIds ps) (h : condDecrement ps i q = (ps', true)) :
    ps' = incQuantity ps i (-q) := by
  unfold condDecrement at h
  split at h
  · rename_i hany
    have h' := congrArg Prod.fst h
    simp only [] at h'
    rw [← h']
    exact updateFirst_dec_eq_inc hnd hany
  · exact absurd (congrArg Prod.snd h) (by simp)

theorem incQuantity_cons (a : Product) (l : List Product) (i : Nat) (d : ℤ) :
    incQuantity (a :: l) i d =
      if (a.id == i) = true then { a with quantity := a.quantity + d } :: l
      else a :: incQuantity l i d := rfl

theorem incQuantity_add (i : Nat) (d e : ℤ) :
    ∀ ps : List Product,
    incQuantity (incQuantity ps i d) i e = incQuantity ps i (d + e) := by
  intro ps
  induction ps with
  | nil => rfl
  | cons a l ih =>
    by_cases hid : (a.id == i) = true
    · simp [incQuantity_cons, hid, add_assoc]
    · simp [incQuantity_cons, hid, ih]

theorem incQuantity_zero (i : Nat) : ∀ ps : List Product, incQuantity ps i 0 = ps := by
  intro ps
  induction ps with
  | nil => rfl
  | cons a l ih =>
    by_cases hid : (a.id == i) = true
    · simp [incQuantity_cons, hid]
    · simp [incQuantity_cons, hid, ih]

theorem incQuantity_comm (i j : Nat) (d e : ℤ) :
    ∀ ps : List Product,
    incQuantity (incQuantity ps i d) j e = incQuantity (incQuantity ps j e) i d := by
  intro ps
  induction ps with
  | nil => rfl
  | cons a l ih =>
    by_cases hi : (a.id == i) = true
    · by_cases hj : (a.id == j) = true
      · simp [incQuantity_cons, hi, hj, add_right_comm]
      · simp [incQuantity_cons, hi, hj]
    · by_cases hj : (a.id == j) = true
      · simp [incQuantity_cons, hi, hj]
      · simp [incQuantity_cons, hi, hj, ih]

theorem ids_incQuantity (ps : List Product) (i : Nat) (d : ℤ) :
    (incQuantity ps i d).map Product.id = ps.map Product.id := by
  unfold incQuantity
  exact map_updateFirst (fun p => p.id == i)
    (fun p => { p with quantity := p.quantity + d }) Product.id (fun _ => rfl) ps

theorem nodupIds_incQuantity {ps : List Product} (i : Nat) (d : ℤ)
    (h : NodupIds ps) : NodupIds (incQuantity ps i d) := by
  unfold NodupIds
  rw [ids_incQuantity]
  exact h

theorem rollback_incQuantity (done : List Product) :
    ∀ (ps : List Product) (i : Nat) (d : ℤ),
    rollback (incQuantity ps i d) done = incQuantity (rollback ps done) i d := by
  induction done with
  | nil => intro ps i d; rfl
  | cons u rest ih =>
    intro ps i d
    simp only [rollback, List.foldl_cons]
    rw [incQuantity_comm]
    exact ih _ i d

theorem rollback_append_item (ps : List Product) (done : List Product) (u : Product) :
    rollback ps (done ++ [u]) = incQuantity (rollback ps done) u.id u.quantity := by
  simp only [rollback, List.foldl_append, List.foldl_cons, List.foldl_nil]

/-- Key induction for claim C2: if the reservation loop fails on some item,
the final catalog equals the rollback target, the order is marked `failed`,
and the message names an item of the remaining work list. -/
theorem processItems_fail_restores (oid : String) (orders : List OrderDoc) :
    ∀ (items done ps ps0 ps' : List Product) (os' : List OrderDoc) (r : TaskResult),
      NodupIds ps → rollback ps done = ps0 →
      processItems oid orders ps done items = (ps', os', r) →
      r.status = "failure" →
      ps' = ps0 ∧ os' = setOrderStatus orders oid OrderStatus.failed ∧
        ∃ item ∈ items, r.message = "Insufficient stock for " ++ item.name ++ "." := by
  intro items
  induction items with
  | nil =>
    intro done ps ps0 ps' os' r _ _ hrun hfail
    simp only [processItems] at hrun
    have : r = ⟨"success", "Inventory updated and order completed."⟩ := by
      have := congrArg (fun t => t.2.2) hrun
      simpa using this.symm
    rw [this] at hfail
    exact absurd hfail (by decide)
  | cons item rest ih =>
    intro done ps ps0 ps' os' r hnd hrb hrun hfail
    simp only [processItems] at hrun
    rcases hcd : condDecrement ps item.id item.quantity with ⟨ps1, b⟩
    rw [hcd] at hrun
    cases b
    · simp only [] at hrun
      have hps1 : ps1 = ps := condDecrement_false hcd
      have h1 := congrArg (fun t => t.1) hrun
      have h2 := congrArg (fun t => t.2.1) hrun
      have h3 := congrArg (fun t => t.2.2) hrun
      simp only [] at h1 h2 h3
      refine ⟨?_, h2.symm, ⟨item, by simp, ?_⟩⟩
      · rw [← h1, hps1, hrb]
      · rw [← h3]
    · simp only [] at hrun
      have hps1 : ps1 = incQuantity ps item.id (-item.quantity) :=
        condDecrement_true hnd hcd
      have hnd1 : NodupIds ps1 := by
        rw [hps1]; exact nodupIds_incQuantity _ _ hnd
      have hrb1 : rollback ps1 (done ++ [item]) = ps0 := by
        rw [rollback_append_item, hps1, rollback_incQuantity, incQuantity_add]
        simp only [neg_add_cancel, incQuantity_zero]
        exact hrb
      obtain ⟨h1, h2, item', hmem, hmsg⟩ :=
        ih (done ++ [item]) ps1 ps0 ps' os' r hnd1 hrb1 hrun hfail
      exact ⟨h1, h2, ⟨item', List.mem_cons_of_mem _ hmem, hmsg⟩⟩

theorem findOrder_cons (a : OrderDoc) (l : List OrderDoc) (oid : String) :
    findOrder (a :: l) oid =
      if (a.order_id == oid) = true then some a else findOrder l oid := by
  unfold findOrder
  rw [List.find?_cons]
  by_cases ha : (a.order_id == oid) = true
  · simp [ha]
  · simp [ha]

theorem setOrderStatus_cons (a : OrderDoc) (l : List OrderDoc) (oid : String)
    (s : OrderStatus) :
    setOrderStatus (a :: l) oid s =
      if (a.order_id == oid) = true then { a with status := s } :: l
      else a :: setOrderStatus l oid s := rfl

theorem findOrder_setOrderStatus_self {oid : String} {od : OrderDoc} (s : OrderStatus) :
    ∀ {orders : List OrderDoc}, findOrder orders oid = some od →
    findOrder (setOrderStatus orders oid s) oid = some { od with status := s } := by
  intro orders
  induction orders with
  | nil => intro h; simp [findOrder] at h
  | cons a l ih =>
    intro h
    by_cases ha : (a.order_id == oid) = true
    · rw [findOrder_cons, if_pos ha] at h
      obtain rfl : a = od := Option.some.inj h
      simp [setOrderStatus_cons, findOrder_cons, ha]
    · rw [findOrder_cons, if_neg ha] at h
      simp [setOrderStatus_cons, findOrder_cons, ha, ih h]

/-- C1: Across every sequence of engine operations, no product's stock
quantity ever becomes negative: the worker's conditional decrements (guarded
by `quantity ≥ requested`) are the only writes that can lower stock, and the
cart, checkout and webhook operations never write the products collection at
all. -/
theorem c1_stock_never_negative (st : SysState) (ops : List Op)
    (h : stockNonneg st.products) :
    stockNonneg (applyOps st ops).products ∧
    (∀ user r, (applyOp st (Op.cartOp user r)).products = st.products) ∧
    (∀ s svg user p oid provider,
      (applyOp st (Op.checkout s svg user p oid provider)).products = st.products) ∧
    (∀ mac secret p,
      (applyOp st (Op.webhook mac secret p)).products = st.products) := by
  refine ⟨applyOps_nonneg ops st h, ?_, ?_, ?_⟩ <;> intros <;> rfl

/-- Witness for C1: a concrete paid order fully drains the stock of product 1
and the quantity stays non-negative. -/
theorem c1_stock_never_negative_witness :
    stockNonneg c1demoState.products ∧
    stockNonneg (applyOps c1demoState [Op.workerRun "o1"]).products :=
  ⟨by unfold stockNonneg; decide,
    (c1_stock_never_negative c1demoState [Op.workerRun "o1"]
      (by unfold stockNonneg; decide)).1⟩

/-- C2: If the worker processes a `paid` order and some item's conditional
decrement fails on insufficient stock, the run leaves the products collection
exactly as it was (every earlier decrement is compensated), marks the order
`failed`, and returns a failure result naming an item of the order. -/
theorem c2_rollback_compensates (ps : List Product) (orders : List OrderDoc)
    (oid : String) (od : OrderDoc) (ps' : List Product) (os' : List OrderDoc)
    (r : TaskResult) (hnd : NodupIds ps)
    (hfind : findOrder orders oid = some od)
    (hpaid : od.status = OrderStatus.paid)
    (hrun : process_order ps orders oid = (ps', os', some r))
    (hfail : r.status = "failure") :
    ps' = ps ∧
    findOrder os' oid = some { od with status := OrderStatus.failed } ∧
    ∃ item ∈ od.items, r.message = "Insufficient stock for " ++ item.name ++ "." := by
  unfold process_order at hrun
  rw [hfind] at hrun
  dsimp only [] at hrun
  rw [if_neg (show ¬ od.status ≠ OrderStatus.paid by rw [hpaid]; exact fun hne => hne rfl)]
    at hrun
  by_cases hval : orderDocValid od = true
  · rw [if_pos hval] at hrun
    rcases hpi : processItems oid orders ps [] od.items with ⟨a, b, c⟩
    rw [hpi] at hrun
    have ha := congrArg (fun t => t.1) hrun
    have hb := congrArg (fun t => t.2.1) hrun
    have hc := congrArg (fun t => t.2.2) hrun
    simp only [] at ha hb hc
    have hcr : c = r := Option.some.inj hc
    obtain ⟨h1, h2, hex⟩ :=
      processItems_fail_restores oid orders od.items [] ps ps a b c hnd rfl hpi
        (by rw [hcr]; exact hfail)
    refine ⟨by rw [← ha, h1], ?_, ?_⟩
    · rw [← hb, h2]
      exact findOrder_setOrderStatus_self _ hfind
    · obtain ⟨item, hmem, hmsg⟩ := hex
      exact ⟨item, hmem, by rw [← hcr]; exact hmsg⟩
  · rw [if_neg hval] at hrun
    have := congrArg (fun t => t.2.2) hrun
    simp at this

/-- Witness for C2 on the spec's rollback example: A is decremented first and
fully restored; the order ends `failed`; the failure names B. -/
theorem c2_rollback_compensates_witness :
    process_order c2demoProducts [c2demoOrder] "o2" =
      (c2demoProducts, [{ c2demoOrder with status := OrderStatus.failed }],
        some ⟨"failure", "Insufficient stock for B."⟩) ∧
    (process_order c2demoProducts [c2demoOrder] "o2").1 = c2demoProducts :=
  ⟨by decide,
    (c2_rollback_compensates c2demoProducts [c2demoOrder] "o2" c2demoOrder
      (process_order c2demoProducts [c2demoOrder] "o2").1
      (process_order c2demoProducts [c2demoOrder] "o2").2.1
      ⟨"failure", "Insufficient stock for B."⟩
      (by unfold NodupIds; decide) (by decide) rfl (by decide) rfl).1⟩

/-- C5: The worker is a no-op on absent or non-`paid` orders: it changes no
stock and no status and returns the fixed failure result; in particular a
second run on an order already driven to `completed` changes nothing. -/
theorem c5_worker_idempotent_on_terminal (products : List Product)
    (orders : List OrderDoc) (oid : String)
    (h : (findOrder orders oid).all (fun od => od.status != OrderStatus.paid) = true) :
    process_order products orders oid =
      (products, orders, some ⟨"failure", "Order not found or not paid."⟩) := by
  unfold process_order
  rcases hf : findOrder orders oid with _ | od
  · rfl
  · rw [hf] at h
    have hne : od.status ≠ OrderStatus.paid := by
      have : (od.status != OrderStatus.paid) = true := h
      exact bne_iff_ne.mp this
    dsimp only []
    rw [if_pos hne]

/-- Witness for C5: running the worker on the already-`completed` order
changes neither the catalog nor the order store. -/
theorem c5_worker_idempotent_on_terminal_witness :
    ((findOrder [c5demoOrder] "o5").all
        (fun od => od.status != OrderStatus.paid)) = true ∧
    process_order [(⟨1, "A", 10, none, 3⟩ : Product)] [c5demoOrder] "o5" =
      ([(⟨1, "A", 10, none, 3⟩ : Product)], [c5demoOrder],
        some ⟨"failure", "Order not found or not paid."⟩) :=
  ⟨by decide, c5_worker_idempotent_on_terminal _ _ _ (by decide)⟩

/-- C3: The server recomputes `subtotal` and `total` exactly
(`Σ price·quantity` and `subtotal + shipping`, in exact decimal arithmetic);
the model validator rejects precisely when a declared value is off by at least
0.01, and a rejected payload never creates an order; on the spec example the
recomputed subtotal is 20.00 and total 25.00, and declaring 19.99 is
rejected. -/
theorem c3_totals_validation (p : CheckoutPayload) :
    ((validate_and_recalculate_totals p).isSome = true ↔
      (1/100 : ℚ) ≤ |p.subtotal - calculated_subtotal p| ∨
      (1/100 : ℚ) ≤ |p.total_cost - calculated_total p|) ∧
    (∀ s svg orders user oid provider,
      (validate_and_recalculate_totals p).isSome = true →
      initiate_checkout s svg orders user p oid provider =
        (orders, CheckoutResult.unprocessable "Invalid checkout payload")) ∧
    calculated_subtotal c3demoOk = 20 ∧
    calculated_total c3demoOk = 25 ∧
    validate_and_recalculate_totals c3demoOk = none ∧
    (validate_and_recalculate_totals c3demoTampered).isSome = true := by
  refine ⟨?_, ?_, ?_, ?_, ?_, ?_⟩
  · constructor
    · intro hsome
      by_cases h1 : |p.subtotal - calculated_subtotal p| < 1/100
      · by_cases h2 : |p.total_cost - calculated_total p| < 1/100
        · exfalso
          unfold validate_and_recalculate_totals at hsome
          rw [if_neg (not_not_intro h1), if_neg (not_not_intro h2)] at hsome
          simp at hsome
        · exact Or.inr (not_lt.mp h2)
      · exact Or.inl (not_lt.mp h1)
    · intro hor
      unfold validate_and_recalculate_totals
      by_cases h1 : |p.subtotal - calculated_subtotal p| < 1/100
      · have h2 : ¬ |p.total_cost - calculated_total p| < 1/100 := by
          rcases hor with h | h
          · exact absurd h1 (not_lt.mpr h)
          · exact not_lt.mpr h
        rw [if_neg (not_not_intro h1), if_pos h2]
        rfl
      · rw [if_pos h1]
        rfl
  · intro s svg orders user oid provider hsome
    unfold initiate_checkout
    have hvf : checkoutPayloadValid p = false := by
      unfold checkoutPayloadValid
      rw [Option.isSome_iff_exists] at hsome
      obtain ⟨msg, hmsg⟩ := hsome
      simp [hmsg]
    rw [hvf]
    simp
  · norm_num [calculated_subtotal, c3demoOk, c3demoItems]
  · norm_num [calculated_total, calculated_subtotal, c3demoOk, c3demoItems]
  · norm_num [validate_and_recalculate_totals, calculated_total, calculated_subtotal,
      c3demoOk, c3demoItems, abs_sub_lt_iff]
  · have habs : |(1999/100 : ℚ) - 20| = 1/100 := by
      rw [show (1999/100 : ℚ) - 20 = -(1/100) by norm_num]
      rw [abs_neg, abs_of_pos (by norm_num : (0:ℚ) < 1/100)]
    have habs2 : |(1/100 : ℚ)| = 1/100 := abs_of_pos (by norm_num)
    norm_num [validate_and_recalculate_totals, calculated_total, calculated_subtotal,
      c3demoTampered, c3demoItems, habs, habs2]

/-- Witness for C3: with the tampered subtotal 19.99 the validator rejects
and checkout leaves the order store untouched. -/
theorem c3_totals_validation_witness :
    initiate_checkout ⟨970422, "123", "shop"⟩ (fun qr => qr) [] "u" c3demoTampered
        "o3" (fun _ => ProviderOutcome.requestError) =
      ([], CheckoutResult.unprocessable "Invalid checkout payload") :=
  (c3_totals_validation c3demoTampered).2.1 ⟨970422, "123", "shop"⟩ (fun qr => qr)
    [] "u" "o3" (fun _ => ProviderOutcome.requestError)
    (by
      have habs : |(1999/100 : ℚ) - 20| = 1/100 := by
        rw [show (1999/100 : ℚ) - 20 = -(1/100) by norm_num]
        rw [abs_neg, abs_of_pos (by norm_num : (0:ℚ) < 1/100)]
      have habs2 : |(1/100 : ℚ)| = 1/100 := abs_of_pos (by norm_num)
      norm_num [validate_and_recalculate_totals, calculated_total, calculated_subtotal,
        c3demoTampered, c3demoItems, habs, habs2])

/-- C10: the amount handed to the payment provider is `int(total_cost)` —
truncation toward zero, so any fractional part is discarded, not rounded —
while the persisted pending order keeps the exact, untruncated total; on the
concrete total 25.9 the provider gets 25 (not 26). -/
theorem c10_amount_truncated (s : Settings) (svg : String → String)
    (orders : List OrderDoc) (user : String) (p : CheckoutPayload) (oid : String)
    (provider : VietQRGenerateRequest → ProviderOutcome)
    (hne : p.items.isEmpty = false) :
    (vietqrRequest s (pendingOrder user p oid)).amount = pyInt p.total_cost ∧
    (checkoutBody s svg orders user p oid provider).1 =
      orders ++ [pendingOrder user p oid] ∧
    (pendingOrder user p oid).total_cost = p.total_cost ∧
    pyInt ((259 : ℚ)/10) = 25 := by
  refine ⟨rfl, ?_, rfl, by norm_num [pyInt]⟩
  unfold checkoutBody
  rw [if_neg (by simp [hne])]
  dsimp only []
  rcases hp : provider (vietqrRequest s (pendingOrder user p oid)) with qr | desc | _ | _ <;>
    rfl

/-- Witness for C10 on the concrete total 25.9. -/
theorem c10_amount_truncated_witness :
    (vietqrRequest ⟨970422, "123", "shop"⟩ (pendingOrder "u" c10demoPayload "oX")).amount =
      pyInt c10demoPayload.total_cost ∧
    pyInt ((259 : ℚ)/10) = 25 :=
  ⟨(c10_amount_truncated ⟨970422, "123", "shop"⟩ (fun qr => qr) [] "u" c10demoPayload
      "oX" (fun _ => ProviderOutcome.requestError) (by decide)).1,
    (c10_amount_truncated ⟨970422, "123", "shop"⟩ (fun qr => qr) [] "u" c10demoPayload
      "oX" (fun _ => ProviderOutcome.requestError) (by decide)).2.2.2⟩

/-- C7 counterexample: when the provider call fails with a non-2xx HTTP
status, `raise_for_status()` raises `httpx.HTTPStatusError`, which the
route's `except httpx.RequestError` clause does not catch — the caller gets a
generic uncaught error, not the claimed 503 service-unavailable error (the
pending order does remain). -/
theorem c7_counterexample_non2xx_not_503 :
    (initiate_checkout ⟨970422, "123", "shop"⟩ (fun qr => qr) [] "u" c7demoPayload
        "o7" (fun _ => ProviderOutcome.non2xx)).2 = CheckoutResult.uncaughtError ∧
    ((initiate_checkout ⟨970422, "123", "shop"⟩ (fun qr => qr) [] "u" c7demoPayload
        "o7" (fun _ => ProviderOutcome.non2xx)).2).isServiceUnavailable = false ∧
    (initiate_checkout ⟨970422, "123", "shop"⟩ (fun qr => qr) [] "u" c7demoPayload
        "o7" (fun _ => ProviderOutcome.non2xx)).1 =
      [pendingOrder "u" c7demoPayload "o7"] := by
  have hv : checkoutPayloadValid c7demoPayload = true := by
    norm_num [checkoutPayloadValid, fieldConstraintsOk, itemValid,
      validate_and_recalculate_totals, calculated_total, calculated_subtotal,
      c7demoPayload, abs_sub_lt_iff]
  have hrun : initiate_checkout ⟨970422, "123", "shop"⟩ (fun qr => qr) [] "u"
      c7demoPayload "o7" (fun _ => ProviderOutcome.non2xx) =
      ([pendingOrder "u" c7demoPayload "o7"], CheckoutResult.uncaughtError) := by
    unfold initiate_checkout
    rw [hv]
    rfl
  rw [hrun]
  exact ⟨rfl, rfl, rfl⟩

/-- C7 (amended): the pending order is persisted before the provider call and
survives every provider outcome; a connection failure or the 10-second
timeout (`httpx.RequestError`) and a provider-reported error code both
surface as 503 service-unavailable; a non-2xx HTTP status instead escapes as
an uncaught exception (generic 500). -/
theorem c7_pending_survives_provider_failure (s : Settings) (svg : String → String)
    (orders : List OrderDoc) (user : String) (p : CheckoutPayload) (oid : String)
    (provider : VietQRGenerateRequest → ProviderOutcome)
    (hv : checkoutPayloadValid p = true) (hne : p.items.isEmpty = false) :
    (initiate_checkout s svg orders user p oid provider).1 =
      orders ++ [pendingOrder user p oid] ∧
    (provider (vietqrRequest s (pendingOrder user p oid)) = ProviderOutcome.requestError →
      (initiate_checkout s svg orders user p oid provider).2 =
        CheckoutResult.serviceUnavailable "Could not connect to the payment QR service.") ∧
    (∀ desc, provider (vietqrRequest s (pendingOrder user p oid)) = ProviderOutcome.apiError desc →
      (initiate_checkout s svg orders user p oid provider).2 =
        CheckoutResult.serviceUnavailable ("Failed to generate QR code: " ++ desc)) ∧
    (provider (vietqrRequest s (pendingOrder user p oid)) = ProviderOutcome.non2xx →
      (initiate_checkout s svg orders user p oid provider).2 =
        CheckoutResult.uncaughtError) := by
  unfold initiate_checkout
  rw [if_pos hv]
  unfold checkoutBody
  rw [if_neg (by simp [hne])]
  dsimp only []
  refine ⟨?_, ?_, ?_, ?_⟩
  · rcases hp : provider (vietqrRequest s (pendingOrder user p oid)) with qr | desc | _ | _ <;>
      rfl
  · intro h; rw [h]
  · intro desc h; rw [h]
  · intro h; rw [h]

/-- Witness for C7 (amended): a concrete timeout leaves the pending order in
the store and returns the 503. -/
theorem c7_pending_survives_provider_failure_witness :
    (initiate_checkout ⟨970422, "123", "shop"⟩ (fun qr => qr) [] "u" c7demoPayload
        "o7b" (fun _ => ProviderOutcome.requestError)).1 =
      [pendingOrder "u" c7demoPayload "o7b"] ∧
    (initiate_checkout ⟨970422, "123", "shop"⟩ (fun qr => qr) [] "u" c7demoPayload
        "o7b" (fun _ => ProviderOutcome.requestError)).2 =
      CheckoutResult.serviceUnavailable "Could not connect to the payment QR service." :=
  ⟨(c7_pending_survives_provider_failure ⟨970422, "123", "shop"⟩ (fun qr => qr) [] "u"
      c7demoPayload "o7b" (fun _ => ProviderOutcome.requestError)
      (by norm_num [checkoutPayloadValid, fieldConstraintsOk, itemValid,
        validate_and_recalculate_totals, calculated_total, calculated_subtotal,
        c7demoPayload, abs_sub_lt_iff]) (by decide)).1,
    (c7_pending_survives_provider_failure ⟨970422, "123", "shop"⟩ (fun qr => qr) [] "u"
      c7demoPayload "o7b" (fun _ => ProviderOutcome.requestError)
      (by norm_num [checkoutPayloadValid, fieldConstraintsOk, itemValid,
        validate_and_recalculate_totals, calculated_total, calculated_subtotal,
        c7demoPayload, abs_sub_lt_iff]) (by decide)).2.1 rfl⟩

theorem findOrder_append_left (l : List OrderDoc) {oid : String} {od : OrderDoc} :
    ∀ {orders : List OrderDoc}, findOrder orders oid = some od →
    findOrder (orders ++ l) oid = some od := by
  intro orders
  induction orders with
  | nil => intro h; simp [findOrder] at h
  | cons a tl ih =>
    intro h
    rw [List.cons_append, findOrder_cons]
    rw [findOrder_cons] at h
    by_cases ha : (a.order_id == oid) = true
    · rw [if_pos ha] at h ⊢; exact h
    · rw [if_neg ha] at h ⊢; exact ih h

theorem findOrder_setOrderStatus_ne {oid oid2 : String} (hne : oid2 ≠ oid)
    (s : OrderStatus) :
    ∀ orders : List OrderDoc,
    findOrder (setOrderStatus orders oid s) oid2 = findOrder orders oid2 := by
  intro orders
  induction orders with
  | nil => rfl
  | cons a l ih =>
    rw [setOrderStatus_cons]
    by_cases ha : (a.order_id == oid) = true
    · rw [if_pos ha]
      by_cases ha2 : (a.order_id == oid2) = true
      · exact absurd (by rw [← beq_iff_eq.mp ha2, beq_iff_eq.mp ha]) hne
      · simp [findOrder_cons, ha2]
    · rw [if_neg ha]
      by_cases ha2 : (a.order_id == oid2) = true
      · simp [findOrder_cons, ha2]
      · simp [findOrder_cons, ha2, ih]

theorem processItems_orders_cases (oid : String) (orders : List OrderDoc) :
    ∀ (items ps done : List Product),
      (processItems oid orders ps done items).2.1 =
          setOrderStatus orders oid OrderStatus.completed ∨
      (processItems oid orders ps done items).2.1 =
          setOrderStatus orders oid OrderStatus.failed := by
  intro items
  induction items with
  | nil => intro ps done; exact Or.inl rfl
  | cons item rest ih =>
    intro ps done
    simp only [processItems]
    rcases condDecrement ps item.id item.quantity with ⟨ps1, b⟩
    cases b
    · exact Or.inr rfl
    · exact ih ps1 (done ++ [item])

theorem process_order_orders_cases (ps : List Product) (orders : List OrderDoc)
    (w : String) :
    (process_order ps orders w).2.1 = orders ∨
    (∃ od, findOrder orders w = some od ∧ od.status = OrderStatus.paid ∧
      ((process_order ps orders w).2.1 = setOrderStatus orders w OrderStatus.completed ∨
       (process_order ps orders w).2.1 = setOrderStatus orders w OrderStatus.failed)) := by
  unfold process_order
  rcases hf : findOrder orders w with _ | od
  · exact Or.inl rfl
  · dsimp only []
    by_cases hst : od.status ≠ OrderStatus.paid
    · rw [if_pos hst]; exact Or.inl rfl
    · rw [if_neg hst]
      by_cases hval : orderDocValid od = true
      · rw [if_pos hval]
        rcases hpi : processItems w orders ps [] od.items with ⟨a, b, c⟩
        refine Or.inr ⟨od, rfl, not_not.mp hst, ?_⟩
        have hcases := processItems_orders_cases w orders od.items ps []
        rw [hpi] at hcases
        exact hcases
      · rw [if_neg hval]; exact Or.inl rfl

theorem handle_webhook_orders_cases
    (mac : String → VietQRWebhookPayload → String) (secret : String)
    (orders : List OrderDoc) (queue : List String) (p : VietQRWebhookPayload) :
    (handle_webhook mac secret orders queue p).1 = orders ∨
    (∃ od, findOrder orders p.referenceId = some od ∧
      od.status = OrderStatus.pending ∧
      ((handle_webhook mac secret orders queue p).1 =
          setOrderStatus orders p.referenceId OrderStatus.paid ∨
       (handle_webhook mac secret orders queue p).1 =
          setOrderStatus orders p.referenceId OrderStatus.failed)) := by
  unfold handle_webhook
  by_cases hsig : mac secret p ≠ p.signature
  · rw [if_pos hsig]; exact Or.inl rfl
  · rw [if_neg hsig]
    rcases hf : findOrder orders p.referenceId with _ | od
    · exact Or.inl rfl
    · dsimp only []
      by_cases hamt : p.amount ≠ pyInt od.total_cost
      · rw [if_pos hamt]; exact Or.inl rfl
      · rw [if_neg hamt]
        by_cases hst : od.status ≠ OrderStatus.pending
        · rw [if_pos hst]; exact Or.inl rfl
        · rw [if_neg hst]
          cases p.state
          · exact Or.inr ⟨od, rfl, not_not.mp hst, Or.inl rfl⟩
          · exact Or.inr ⟨od, rfl, not_not.mp hst, Or.inr rfl⟩

/-- A compare-and-set-style status write (guard read plus first-match update)
moves the recorded status of every order along `statusStep`. -/
theorem statusStep_of_setOrderStatus {orders : List OrderDoc} {w : String}
    {od : OrderDoc} {s' : OrderStatus} {oid : String} {a : OrderStatus}
    (hfo : findOrder orders w = some od) (hstep : statusStep od.status s')
    (h : (findOrder orders oid).map OrderDoc.status = some a) :
    ∃ b, (findOrder (setOrderStatus orders w s') oid).map OrderDoc.status = some b ∧
      statusStep a b := by
  by_cases heq : oid = w
  · subst heq
    rw [hfo] at h
    have ha : od.status = a := Option.some.inj h
    refine ⟨s', ?_, by rw [← ha]; exact hstep⟩
    rw [findOrder_setOrderStatus_self s' hfo]
    rfl
  · rw [findOrder_setOrderStatus_ne heq s' orders]
    exact ⟨a, h, Or.inl rfl⟩

theorem checkoutBody_orders_cases (s : Settings) (svg : String → String)
    (orders : List OrderDoc) (user : String) (p : CheckoutPayload) (oid : String)
    (provider : VietQRGenerateRequest → ProviderOutcome) :
    (checkoutBody s svg orders user p oid provider).1 = orders ∨
    (checkoutBody s svg orders user p oid provider).1 =
      orders ++ [pendingOrder user p oid] := by
  unfold checkoutBody
  by_cases hempty : p.items.isEmpty = true
  · rw [if_pos hempty]; exact Or.inl rfl
  · rw [if_neg hempty]
    dsimp only []
    rcases provider (vietqrRequest s (pendingOrder user p oid)) with _ | _ | _ | _ <;>
      exact Or.inr rfl

theorem applyOp_statusStep (st : SysState) (op : Op) (oid : String) (a : OrderStatus)
    (h : orderStatusOf st oid = some a) :
    ∃ b, orderStatusOf (applyOp st op) oid = some b ∧ statusStep a b := by
  cases op with
  | cartOp user r => exact ⟨a, h, Or.inl rfl⟩
  | checkout s svg user p oid2 provider =>
    unfold orderStatusOf at h ⊢
    have hkey : (applyOp st (Op.checkout s svg user p oid2 provider)).orders =
        (initiate_checkout s svg st.orders user p oid2 provider).1 := rfl
    rw [hkey]
    refine ⟨a, ?_, Or.inl rfl⟩
    rcases hfo : findOrder st.orders oid with _ | od
    · rw [hfo] at h; simp at h
    · rw [hfo] at h
      unfold initiate_checkout
      by_cases hv : checkoutPayloadValid p = true
      · rw [if_pos hv]
        rcases checkoutBody_orders_cases s svg st.orders user p oid2 provider with hc | hc
        · rw [hc, hfo]; exact h
        · rw [hc, findOrder_append_left _ hfo]; exact h
      · rw [if_neg hv]
        dsimp only []
        rw [hfo]; exact h
  | webhook mac secret p =>
    unfold orderStatusOf at h ⊢
    have hkey : (applyOp st (Op.webhook mac secret p)).orders =
        (handle_webhook mac secret st.orders st.queue p).1 := rfl
    rw [hkey]
    rcases handle_webhook_orders_cases mac secret st.orders st.queue p with
      hsame | ⟨od, hfo, hpend, hset | hset⟩
    · rw [hsame]; exact ⟨a, h, Or.inl rfl⟩
    · rw [hset]
      exact statusStep_of_setOrderStatus hfo (Or.inr (Or.inl ⟨hpend, Or.inl rfl⟩)) h
    · rw [hset]
      exact statusStep_of_setOrderStatus hfo (Or.inr (Or.inl ⟨hpend, Or.inr rfl⟩)) h
  | workerRun w =>
    unfold orderStatusOf at h ⊢
    have hkey : (applyOp st (Op.workerRun w)).orders =
        (process_order st.products st.orders w).2.1 := rfl
    rw [hkey]
    rcases process_order_orders_cases st.products st.orders w with
      hsame | ⟨od, hfo, hpaid, hset | hset⟩
    · rw [hsame]; exact ⟨a, h, Or.inl rfl⟩
    · rw [hset]
      exact statusStep_of_setOrderStatus hfo (Or.inr (Or.inr ⟨hpaid, Or.inl rfl⟩)) h
    · rw [hset]
      exact statusStep_of_setOrderStatus hfo (Or.inr (Or.inr ⟨hpaid, Or.inr rfl⟩)) h

theorem applyOps_statusStep (ops : List Op) :
    ∀ (st : SysState) (oid : String) (a : OrderStatus),
      orderStatusOf st oid = some a →
      ∃ b, orderStatusOf (applyOps st ops) oid = some b ∧
        Relation.ReflTransGen statusStep a b := by
  induction ops with
  | nil => intro st oid a h; exact ⟨a, h, Relation.ReflTransGen.refl⟩
  | cons op rest ih =>
    intro st oid a h
    obtain ⟨b, hb, hstep⟩ := applyOp_statusStep st op oid a h
    obtain ⟨c, hc, hsteps⟩ := ih (applyOp st op) oid b hb
    exact ⟨c, hc, Relation.ReflTransGen.head hstep hsteps⟩

/-- C4 counterexample: the worker's status writes (tasks.py lines 43 and 55)
filter on `order_id` only — they are not compare-and-set — so two racing
deliveries of the same job can interleave at store-call granularity such
that (i) the order reaches terminal `completed` and is then moved to
`failed`, and (ii) with enough stock, both racing runs fully succeed,
decrementing stock twice for one order. -/
theorem c4_counterexample_racing_workers :
    ((runSchedule "o4r" ⟨c4raceProducts, [c4raceOrder], WPhase.start, WPhase.start⟩
        [true, false, true, true]).orders.map OrderDoc.status =
      [OrderStatus.completed]) ∧
    ((runSchedule "o4r" ⟨c4raceProducts, [c4raceOrder], WPhase.start, WPhase.start⟩
        [true, false, true, true, false, false]).orders.map OrderDoc.status =
      [OrderStatus.failed]) ∧
    ((runSchedule "o4r" ⟨c4raceProducts10, [c4raceOrder], WPhase.start, WPhase.start⟩
        [true, false, true, true, false, false]).w1 =
      WPhase.finished (some ⟨"success", "Inventory updated and order completed."⟩)) ∧
    ((runSchedule "o4r" ⟨c4raceProducts10, [c4raceOrder], WPhase.start, WPhase.start⟩
        [true, false, true, true, false, false]).w2 =
      WPhase.finished (some ⟨"success", "Inventory updated and order completed."⟩)) ∧
    ((runSchedule "o4r" ⟨c4raceProducts10, [c4raceOrder], WPhase.start, WPhase.start⟩
        [true, false, true, true, false, false]).products.map Product.quantity =
      [0]) := by
  decide

/-- C4 (amended): when each handler invocation runs to completion atomically
(sequential execution), every order's recorded status only moves forward
along `pending → {paid, failed}`, `paid → {completed, failed}`, with
`completed` and `failed` terminal; the worker's and webhook's transitions are
guarded by a status check at fetch time, though the status writes themselves
are filtered only by `order_id`, so this guarantee does not survive
interleaving (see the counterexample). -/
theorem c4_status_monotonic_sequential (st : SysState) (ops : List Op)
    (oid : String) (a : OrderStatus) (h : orderStatusOf st oid = some a) :
    ∃ b, orderStatusOf (applyOps st ops) oid = some b ∧
      Relation.ReflTransGen statusStep a b :=
  applyOps_statusStep ops st oid a h

/-- Witness for C4 (amended): a sequential worker run only moves the paid
order forward. -/
theorem c4_status_monotonic_sequential_witness :
    orderStatusOf c4demoState "o4" = some OrderStatus.paid ∧
    ∃ b, orderStatusOf (applyOps c4demoState [Op.workerRun "o4"]) "o4" = some b ∧
      Relation.ReflTransGen statusStep OrderStatus.paid b :=
  ⟨by decide,
    c4_status_monotonic_sequential c4demoState [Op.workerRun "o4"] "o4"
      OrderStatus.paid (by decide)⟩

/-- C6 (modelled from the spec; the webhook route is absent from src): the
Payment Confirmation Handler rejects an unverified signature, an unknown
`order_id` and a wrong amount without mutating anything; treats a non-pending
order as a logged no-op without mutating anything; and on a verified SUCCESS
for a pending order with the right amount transitions it `pending → paid` and
enqueues the order id for the Inventory Reservation Worker. -/
theorem c6_webhook_verification (mac : String → VietQRWebhookPayload → String)
    (secret : String) (orders : List OrderDoc) (queue : List String)
    (p : VietQRWebhookPayload) :
    (mac secret p ≠ p.signature →
      handle_webhook mac secret orders queue p =
        (orders, queue, WebhookResult.rejected "bad signature")) ∧
    (findOrder orders p.referenceId = none → mac secret p = p.signature →
      handle_webhook mac secret orders queue p =
        (orders, queue, WebhookResult.rejected "unknown order")) ∧
    (∀ od, findOrder orders p.referenceId = some od → mac secret p = p.signature →
      p.amount ≠ pyInt od.total_cost →
      handle_webhook mac secret orders queue p =
        (orders, queue, WebhookResult.rejected "wrong amount")) ∧
    (∀ od, findOrder orders p.referenceId = some od → mac secret p = p.signature →
      p.amount = pyInt od.total_cost → od.status ≠ OrderStatus.pending →
      handle_webhook mac secret orders queue p =
        (orders, queue, WebhookResult.noop)) ∧
    (∀ od, findOrder orders p.referenceId = some od → mac secret p = p.signature →
      p.amount = pyInt od.total_cost → od.status = OrderStatus.pending →
      p.state = VietQRTransactionState.SUCCESS →
      handle_webhook mac secret orders queue p =
        (setOrderStatus orders p.referenceId OrderStatus.paid,
          queue ++ [p.referenceId], WebhookResult.accepted)) := by
  refine ⟨?_, ?_, ?_, ?_, ?_⟩
  · intro hsig
    unfold handle_webhook
    rw [if_pos hsig]
  · intro hf hsig
    unfold handle_webhook
    rw [if_neg (not_not_intro hsig), hf]
  · intro od hf hsig hamt
    unfold handle_webhook
    rw [if_neg (not_not_intro hsig), hf]
    dsimp only []
    rw [if_pos hamt]
  · intro od hf hsig hamt hst
    unfold handle_webhook
    rw [if_neg (not_not_intro hsig), hf]
    dsimp only []
    rw [if_neg (not_not_intro hamt), if_pos hst]
  · intro od hf hsig hamt hst hsucc
    unfold handle_webhook
    rw [if_neg (not_not_intro hsig), hf]
    dsimp only []
    rw [if_neg (not_not_intro hamt), if_neg (not_not_intro hst), hsucc]

/-- Witness for C6: the verified SUCCESS flips the pending order to `paid`
and enqueues its id. -/
theorem c6_webhook_verification_witness :
    handle_webhook (fun secret q => secret ++ q.referenceId) "k" [c6demoOrder]
        [] c6demoPayload =
      (setOrderStatus [c6demoOrder] "o6" OrderStatus.paid, ["o6"],
        WebhookResult.accepted) :=
  (c6_webhook_verification (fun secret q => secret ++ q.referenceId) "k"
    [c6demoOrder] [] c6demoPayload).2.2.2.2 c6demoOrder (by decide) (by decide)
    (by norm_num [c6demoPayload, c6demoOrder, pyInt]) rfl rfl

theorem updateFirst_forall_find {α : Type _} {p : α → Bool} {f : α → α} {P : α → Prop} :
    ∀ {l : List α}, (∀ x ∈ l, P x) → (∀ x, l.find? p = some x → P (f x)) →
    ∀ x ∈ updateFirst p f l, P x := by
  intro l
  induction l with
  | nil => intro _ _ x hx; simp [updateFirst] at hx
  | cons a tl ih =>
    intro h hf x hx
    rw [updateFirst] at hx
    by_cases hpa : p a = true
    · rw [if_pos hpa] at hx
      rcases List.mem_cons.mp hx with h1 | h1
      · subst h1
        exact hf a (List.find?_cons_of_pos _ hpa)
      · exact h x (List.mem_cons_of_mem _ h1)
    · rw [if_neg hpa] at hx
      rcases List.mem_cons.mp hx with h1 | h1
      · exact h x (List.mem_cons.mpr (Or.inl h1))
      · exact ih (fun y hy => h y (List.mem_cons_of_mem _ hy))
          (fun y hy => hf y (by rw [List.find?_cons_of_neg _ hpa]; exact hy)) x h1

theorem find?_updateFirst_self {α : Type _} {p : α → Bool} {f : α → α}
    (hpf : ∀ x, p (f x) = p x) :
    ∀ {l : List α} {x : α}, l.find? p = some x →
    (updateFirst p f l).find? p = some (f x) := by
  intro l
  induction l with
  | nil => intro x h; simp at h
  | cons a tl ih =>
    intro x h
    rw [updateFirst]
    by_cases hpa : p a = true
    · rw [List.find?_cons_of_pos _ hpa] at h
      obtain rfl : a = x := Option.some.inj h
      rw [if_pos hpa]
      exact List.find?_cons_of_pos _ (by rw [hpf]; exact hpa)
    · rw [List.find?_cons_of_neg _ hpa] at h
      rw [if_neg hpa, List.find?_cons_of_neg _ hpa]
      exact ih h

theorem cartLinesOk_inc_pos (c : CartDoc) (bc : String) (d : ℤ) (hd : 0 < d)
    (hok : cartLinesOk c) :
    cartLinesOk { c with items := (updateFirst (fun l => l.barcode == bc)
      (fun l => { l with quantity := l.quantity + d }) c.items) } := by
  constructor
  · show ((updateFirst _ _ c.items).map CartLine.barcode).Nodup
    rw [map_updateFirst (fun l => l.barcode == bc)
      (fun l => { l with quantity := l.quantity + d }) CartLine.barcode (fun _ => rfl)]
    exact hok.1
  · intro l hl
    refine updateFirst_forall hok.2 ?_ l hl
    intro y hy _
    simpa using add_pos (hok.2 y hy) hd

theorem cartLinesOk_dec (c : CartDoc) (bc : String) (d : ℤ) (ci : CartLine)
    (hok : cartLinesOk c)
    (hfind : c.items.find? (fun l => l.barcode == bc) = some ci)
    (hpos : 0 < ci.quantity + d) :
    cartLinesOk { c with items := (updateFirst (fun l => l.barcode == bc)
      (fun l => { l with quantity := l.quantity + d }) c.items) } := by
  constructor
  · show ((updateFirst _ _ c.items).map CartLine.barcode).Nodup
    rw [map_updateFirst (fun l => l.barcode == bc)
      (fun l => { l with quantity := l.quantity + d }) CartLine.barcode (fun _ => rfl)]
    exact hok.1
  · intro l hl
    refine updateFirst_forall_find hok.2 ?_ l hl
    intro y hy
    obtain rfl : ci = y := Option.some.inj (hfind ▸ hy.symm).symm
    simpa using hpos

theorem cartLinesOk_pull (c : CartDoc) (bc : String) (hok : cartLinesOk c) :
    cartLinesOk { c with items := c.items.filter (fun l => !(l.barcode == bc)) } := by
  constructor
  · exact hok.1.sublist ((List.filter_sublist _).map CartLine.barcode)
  · intro l hl
    exact hok.2 l (List.mem_of_mem_filter hl)

theorem cartLinesOk_push (c : CartDoc) (line : CartLine) (hok : cartLinesOk c)
    (hnew : c.items.find? (fun l => l.barcode == line.barcode) = none)
    (hpos : 0 < line.quantity) :
    cartLinesOk { c with items := c.items ++ [line] } := by
  constructor
  · show ((c.items ++ [line]).map CartLine.barcode).Nodup
    rw [List.map_append]
    refine List.Nodup.append hok.1 (List.nodup_singleton _) ?_
    intro x hx hx2
    simp only [List.map_cons, List.map_nil, List.mem_singleton] at hx2
    subst hx2
    obtain ⟨y, hy, hyb⟩ := List.mem_map.mp hx
    have := List.find?_eq_none.mp hnew y hy
    simp [hyb] at this
  · intro l hl
    rcases List.mem_append.mp hl with h | h
    · exact hok.2 l h
    · simp only [List.mem_singleton] at h
      subst h
      exact hpos

theorem findCart_cons (a : CartDoc) (l : List CartDoc) (user : String) :
    findCart (a :: l) user =
      if (a.user_identity == user) = true then some a else findCart l user := by
  unfold findCart
  rw [List.find?_cons]
  by_cases ha : (a.user_identity == user) = true
  · simp [ha]
  · simp [ha]

theorem find?_user_with_bc {user bc : String} :
    ∀ {carts : List CartDoc} {c0 : CartDoc},
    findCart carts user = some c0 →
    c0.items.any (fun l => l.barcode == bc) = true →
    carts.find? (fun c => c.user_identity == user
      && c.items.any (fun l => l.barcode == bc)) = some c0 := by
  intro carts
  induction carts with
  | nil => intro c0 h _; simp [findCart] at h
  | cons a tl ih =>
    intro c0 h hbc
    rw [findCart_cons] at h
    rw [List.find?_cons]
    by_cases ha : (a.user_identity == user) = true
    · rw [if_pos ha] at h
      obtain rfl : a = c0 := Option.some.inj h
      simp [ha, hbc]
    · rw [if_neg ha] at h
      have hfalse : (a.user_identity == user
          && a.items.any fun l => l.barcode == bc) = false := by
        simp [ha]
      rw [hfalse]
      exact ih h hbc

theorem cartsOk_incLine_pos (carts : List CartDoc) (user bc : String) (d : ℤ)
    (hd : 0 < d) (hinv : ∀ c ∈ carts, cartLinesOk c) :
    ∀ c ∈ incLine carts user bc d, cartLinesOk c := by
  intro c hc
  refine updateFirst_forall hinv ?_ c hc
  intro y hy _
  exact cartLinesOk_inc_pos y bc d hd (hinv y hy)

theorem cartsOk_incLine_dec (carts : List CartDoc) (user bc : String) (q : ℤ)
    (c0 : CartDoc) (ci : CartLine)
    (hfc : findCart carts user = some c0)
    (hci : c0.items.find? (fun l => l.barcode == bc) = some ci)
    (hlt : 0 < ci.quantity - q)
    (hinv : ∀ c ∈ carts, cartLinesOk c) :
    ∀ c ∈ incLine carts user bc (-q), cartLinesOk c := by
  intro c hc
  have hbc : c0.items.any (fun l => l.barcode == bc) = true := by
    rw [List.any_eq_true]
    exact ⟨ci, List.mem_of_find?_eq_some hci,
      List.find?_some (p := fun l : CartLine => l.barcode == bc) hci⟩
  refine updateFirst_forall_find hinv ?_ c hc
  intro y hy
  rw [find?_user_with_bc hfc hbc] at hy
  obtain rfl : c0 = y := Option.some.inj hy
  refine cartLinesOk_dec c0 bc (-q) ci
    (hinv c0 (List.mem_of_find?_eq_some hfc)) hci ?_
  rw [← sub_eq_add_neg]
  exact hlt

theorem cartsOk_pushLineUpsert (carts : List CartDoc) (user : String)
    (line : CartLine) (hinv : ∀ c ∈ carts, cartLinesOk c) (hpos : 0 < line.quantity)
    (hnew : ((findCart carts user).getD ⟨user, []⟩).items.find?
      (fun l => l.barcode == line.barcode) = none) :
    ∀ c ∈ pushLineUpsert carts user line, cartLinesOk c := by
  unfold pushLineUpsert
  by_cases hany : carts.any (fun c => c.user_identity == user) = true
  · rw [if_pos hany]
    intro c hc
    refine updateFirst_forall_find hinv ?_ c hc
    intro y hy
    have hfc : findCart carts user = some y := hy
    rw [hfc, Option.getD_some] at hnew
    exact cartLinesOk_push y line (hinv y (List.mem_of_find?_eq_some hy)) hnew hpos
  · rw [if_neg hany]
    intro c hc
    rcases List.mem_append.mp hc with h | h
    · exact hinv c h
    · simp only [List.mem_singleton] at h
      subst h
      exact ⟨by simp, by intro l hl; simp only [List.mem_singleton] at hl; subst hl; exact hpos⟩

theorem cartsOk_pullLine (carts : List CartDoc) (user bc : String)
    (hinv : ∀ c ∈ carts, cartLinesOk c) :
    ∀ c ∈ pullLine carts user bc, cartLinesOk c := by
  intro c hc
  refine updateFirst_forall hinv ?_ c hc
  intro y hy _
  exact cartLinesOk_pull y bc (hinv y hy)

theorem cartStep5_fst (carts1 : List CartDoc) (user : String) (r : CartOpRequest)
    (product : Product) : (cartStep5 carts1 user r product).1 = carts1 := by
  unfold cartStep5
  rcases findCart carts1 user with _ | uc <;> rfl

/-- C8: a valid cart operation preserves the cart invariant (unique barcode
per line, strictly positive quantities) for every stored cart; and a
successful remove of a line's full quantity deletes every line with that
barcode from the user's cart document, so a zero-quantity line is never
stored. -/
theorem c8_cart_invariant_preserved (products : List Product) (carts : List CartDoc)
    (user : String) (r : CartOpRequest) (hval : CartOpRequest.valid r = true)
    (hinv : ∀ c ∈ carts, cartLinesOk c) :
    (∀ c ∈ (cart_operation products carts user r).1, cartLinesOk c) ∧
    (∀ product0 ci,
      products.find? (fun p => p.barcode == some r.barcode) = some product0 →
      r.action = "remove" →
      ((findCart carts user).getD ⟨user, []⟩).items.find?
          (fun l => l.barcode == r.barcode) = some ci →
      ci.quantity = r.quantity →
      ∀ c, findCart (cart_operation products carts user r).1 user = some c →
        ∀ l ∈ c.items, (l.barcode == r.barcode) = false) := by
  have hq : 0 < r.quantity := by
    have h := hval
    unfold CartOpRequest.valid at h
    simp only [Bool.and_eq_true, decide_eq_true_eq] at h
    exact h.2
  have hact : r.action = "add" ∨ r.action = "remove" := by
    have h := hval
    unfold CartOpRequest.valid at h
    simp only [Bool.and_eq_true, Bool.or_eq_true, beq_iff_eq] at h
    exact h.1
  constructor
  · unfold cart_operation
    split
    next => exact hinv
    next product hfp =>
      dsimp only []
      split
      next => exact hinv
      next hA1 =>
        split
        next => exact hinv
        next hR1 =>
          split
          next hadd =>
            split
            next val hcit =>
              intro c hc
              rw [cartStep5_fst] at hc
              exact cartsOk_incLine_pos carts user r.barcode r.quantity hq hinv c hc
            next hcit =>
              intro c hc
              rw [cartStep5_fst] at hc
              exact cartsOk_pushLineUpsert carts user _ hinv hq hcit c hc
          next hadd =>
            split
            next hrem =>
              split
              next hcit => exact hinv
              next ci hcit =>
                split
                next heq =>
                  intro c hc
                  rw [cartStep5_fst] at hc
                  exact cartsOk_pullLine carts user r.barcode hinv c hc
                next heq =>
                  have hnotlt : ¬ (ci.quantity < r.quantity) := by
                    intro hlt
                    apply hR1
                    rw [hrem, hcit]
                    simpa using hlt
                  have hgt : r.quantity < ci.quantity := by
                    refine lt_of_le_of_ne (not_lt.mp hnotlt) ?_
                    intro h2
                    exact heq (beq_iff_eq.mpr h2.symm)
                  intro c hc
                  rw [cartStep5_fst] at hc
                  rcases hfc : findCart carts user with _ | c0
                  · exfalso
                    rw [hfc] at hcit
                    simp at hcit
                  · rw [hfc, Option.getD_some] at hcit
                    exact cartsOk_incLine_dec carts user r.barcode r.quantity c0 ci
                      hfc hcit (sub_pos.mpr hgt) hinv c hc
            next hrem =>
              exfalso
              rcases hact with h | h
              · exact hadd (beq_iff_eq.mpr h)
              · exact hrem (beq_iff_eq.mpr h)
  · intro product0 ci hfp hremact hcit hqeq c hfcres l hl
    unfold cart_operation at hfcres
    split at hfcres
    next hfp2 =>
      rw [hfp] at hfp2
      simp at hfp2
    next product1 hfp2 =>
      dsimp only [] at hfcres
      split at hfcres
      next hA1 =>
        exfalso
        rw [hremact] at hA1
        simp at hA1
      next hA1 =>
        split at hfcres
        next hR1 =>
          exfalso
          rw [hcit] at hR1
          rw [Bool.and_eq_true] at hR1
          have hlt := of_decide_eq_true hR1.2
          simp only [Option.map_some', Option.getD_some] at hlt
          rw [hqeq] at hlt
          exact lt_irrefl _ hlt
        next hR1 =>
          split at hfcres
          next hadd =>
            exfalso
            rw [hremact] at hadd
            simp at hadd
          next hadd =>
            split at hfcres
            next hrem =>
              split at hfcres
              next hcit2 =>
                exfalso
                rw [hcit] at hcit2
                simp at hcit2
              next ci2 hcit2 =>
                have hci2 : ci = ci2 := Option.some.inj (hcit.symm.trans hcit2)
                subst hci2
                split at hfcres
                next heq2 =>
                  rw [cartStep5_fst] at hfcres
                  rcases hfc : findCart carts user with _ | c0
                  · exfalso
                    rw [hfc] at hcit
                    simp at hcit
                  · have hpull : findCart (pullLine carts user r.barcode) user =
                        some { c0 with items :=
                          (c0.items.filter (fun l => !(l.barcode == r.barcode))) } := by
                      unfold pullLine findCart
                      exact find?_updateFirst_self
                        (f := fun c => { c with items :=
                          (c.items.filter (fun l => !(l.barcode == r.barcode))) })
                        (fun _ => rfl) hfc
                    rw [hpull] at hfcres
                    obtain rfl := Option.some.inj hfcres
                    have hmem := List.of_mem_filter hl
                    simpa using hmem
                next heq2 =>
                  exfalso
                  exact heq2 (beq_iff_eq.mpr hqeq)
            next hrem =>
              exfalso
              exact hrem (beq_iff_eq.mpr hremact)

/-- Witness for C8: removing the full quantity of the only line keeps every
cart satisfying the invariant (the line is deleted, not zeroed). -/
theorem c8_cart_invariant_preserved_witness :
    CartOpRequest.valid ⟨"b1", "remove", 2⟩ = true ∧
    ∀ c ∈ (cart_operation c8demoProducts c8demoCarts "u" ⟨"b1", "remove", 2⟩).1,
      cartLinesOk c :=
  ⟨by decide,
    (c8_cart_invariant_preserved c8demoProducts c8demoCarts "u" ⟨"b1", "remove", 2⟩
      (by decide)
      (by
        intro c hc
        simp only [c8demoCarts, List.mem_singleton] at hc
        subst hc
        exact ⟨by decide, by decide⟩)).1⟩

theorem cartStep5_cases {carts1 : List CartDoc} {user : String} {r : CartOpRequest}
    {product : Product} {carts2 : List CartDoc} {out : CartOpOutcome}
    (hE : cartStep5 carts1 user r product = (carts2, out)) :
    carts2 = carts1 ∧
    (out = CartOpOutcome.serverError ∨
      ∃ uc, findCart carts1 user = some uc ∧
        out = CartOpOutcome.ok ⟨true, "Cart updated: " ++ r.action ++ " "
          ++ toString r.quantity ++ "x " ++ product.name, cartTotalItems uc.items⟩) := by
  unfold cartStep5 at hE
  split at hE
  next h =>
    rw [Prod.mk.injEq] at hE
    obtain ⟨rfl, rfl⟩ := hE
    exact ⟨rfl, Or.inl rfl⟩
  next uc h =>
    rw [Prod.mk.injEq] at hE
    obtain ⟨rfl, rfl⟩ := hE
    exact ⟨rfl, Or.inr ⟨uc, h, rfl⟩⟩

/-- Complete shape analysis of one cart operation: the unknown-barcode
failure (constant total 0), a known-barcode failure carrying the total of the
fetched (unchanged) cart, a 500, or a success carrying the total of the
refetched cart. -/
theorem cart_operation_shape (products : List Product) (carts : List CartDoc)
    (user : String) (r : CartOpRequest) :
    ∀ (carts2 : List CartDoc) (out : CartOpOutcome),
    cart_operation products carts user r = (carts2, out) →
    (carts2 = carts ∧ out = CartOpOutcome.ok ⟨false, "Unknown barcode: " ++ r.barcode, 0⟩ ∧
      products.find? (fun p => p.barcode == some r.barcode) = none) ∨
    (carts2 = carts ∧ (∃ msg, out = CartOpOutcome.ok ⟨false, msg,
        cartTotalItems (((findCart carts user).getD ⟨user, []⟩).items)⟩) ∧
      products.find? (fun p => p.barcode == some r.barcode) ≠ none) ∨
    (out = CartOpOutcome.serverError) ∨
    (∃ uc msg, findCart carts2 user = some uc ∧
      out = CartOpOutcome.ok ⟨true, msg, cartTotalItems uc.items⟩) := by
  intro carts2 out hE
  unfold cart_operation at hE
  split at hE
  next hfp =>
    rw [Prod.mk.injEq] at hE
    obtain ⟨rfl, rfl⟩ := hE
    exact Or.inl ⟨rfl, rfl, hfp⟩
  next product hfp =>
    have hne : products.find? (fun p => p.barcode == some r.barcode) ≠ none := by
      rw [hfp]; simp
    dsimp only [] at hE
    split at hE
    next hA1 =>
      rw [Prod.mk.injEq] at hE
      obtain ⟨rfl, rfl⟩ := hE
      exact Or.inr (Or.inl ⟨rfl, ⟨_, rfl⟩, hne⟩)
    next hA1 =>
      split at hE
      next hR1 =>
        rw [Prod.mk.injEq] at hE
        obtain ⟨rfl, rfl⟩ := hE
        exact Or.inr (Or.inl ⟨rfl, ⟨_, rfl⟩, hne⟩)
      next hR1 =>
        split at hE
        next hadd =>
          split at hE
          next val hcit =>
            obtain ⟨rfl, hout⟩ := cartStep5_cases hE
            rcases hout with h | ⟨uc, hu, h⟩
            · exact Or.inr (Or.inr (Or.inl h))
            · exact Or.inr (Or.inr (Or.inr ⟨uc, _, hu, h⟩))
          next hcit =>
            obtain ⟨rfl, hout⟩ := cartStep5_cases hE
            rcases hout with h | ⟨uc, hu, h⟩
            · exact Or.inr (Or.inr (Or.inl h))
            · exact Or.inr (Or.inr (Or.inr ⟨uc, _, hu, h⟩))
        next hadd =>
          split at hE
          next hrem =>
            split at hE
            next hcit =>
              rw [Prod.mk.injEq] at hE
              obtain ⟨rfl, rfl⟩ := hE
              exact Or.inr (Or.inr (Or.inl rfl))
            next ci hcit =>
              split at hE
              next heq =>
                obtain ⟨rfl, hout⟩ := cartStep5_cases hE
                rcases hout with h | ⟨uc, hu, h⟩
                · exact Or.inr (Or.inr (Or.inl h))
                · exact Or.inr (Or.inr (Or.inr ⟨uc, _, hu, h⟩))
              next heq =>
                obtain ⟨rfl, hout⟩ := cartStep5_cases hE
                rcases hout with h | ⟨uc, hu, h⟩
                · exact Or.inr (Or.inr (Or.inl h))
                · exact Or.inr (Or.inr (Or.inr ⟨uc, _, hu, h⟩))
          next hrem =>
            obtain ⟨rfl, hout⟩ := cartStep5_cases hE
            rcases hout with h | ⟨uc, hu, h⟩
            · exact Or.inr (Or.inr (Or.inl h))
            · exact Or.inr (Or.inr (Or.inr ⟨uc, _, hu, h⟩))

/-- C9 (amended): a success response carries the total item count recomputed
from the user's cart as refetched after the mutation, and a failure response
for a known barcode carries the total of the cart as fetched before the
(absent) mutation — but the unknown-barcode failure always reports the
constant 0, regardless of the cart's contents. -/
theorem c9_response_total (products : List Product) (carts : List CartDoc)
    (user : String) (r : CartOpRequest) :
    (products.find? (fun p => p.barcode == some r.barcode) = none →
      cart_operation products carts user r =
        (carts, CartOpOutcome.ok ⟨false, "Unknown barcode: " ++ r.barcode, 0⟩)) ∧
    (∀ resp, (cart_operation products carts user r).2 = CartOpOutcome.ok resp →
      resp.success = true →
      resp.cart_total_items = cartTotalItems
        (((findCart (cart_operation products carts user r).1 user).getD
          ⟨user, []⟩).items)) ∧
    (∀ resp, (cart_operation products carts user r).2 = CartOpOutcome.ok resp →
      resp.success = false →
      products.find? (fun p => p.barcode == some r.barcode) ≠ none →
      (cart_operation products carts user r).1 = carts ∧
      resp.cart_total_items = cartTotalItems
        (((findCart carts user).getD ⟨user, []⟩).items)) := by
  refine ⟨?_, ?_, ?_⟩
  · intro hfp
    unfold cart_operation
    split
    next => rfl
    next product hfp2 =>
      rw [hfp] at hfp2
      simp at hfp2
  · intro resp hok hsucc
    rcases cart_operation_shape products carts user r
        (cart_operation products carts user r).1
        (cart_operation products carts user r).2 rfl with
      ⟨h1, h2, hfp⟩ | ⟨h1, ⟨msg, h2⟩, hne⟩ | h2 | ⟨uc, msg, hu, h2⟩
    · rw [hok] at h2
      obtain rfl := CartOpOutcome.ok.inj h2
      simp at hsucc
    · rw [hok] at h2
      obtain rfl := CartOpOutcome.ok.inj h2
      simp at hsucc
    · rw [hok] at h2
      cases h2
    · rw [hok] at h2
      obtain rfl := CartOpOutcome.ok.inj h2
      rw [hu, Option.getD_some]
  · intro resp hok hfalse hne
    rcases cart_operation_shape products carts user r
        (cart_operation products carts user r).1
        (cart_operation products carts user r).2 rfl with
      ⟨h1, h2, hfp⟩ | ⟨h1, ⟨msg, h2⟩, hne2⟩ | h2 | ⟨uc, msg, hu, h2⟩
    · exact absurd hfp hne
    · rw [hok] at h2
      obtain rfl := CartOpOutcome.ok.inj h2
      exact ⟨h1, rfl⟩
    · rw [hok] at h2
      cases h2
    · rw [hok] at h2
      obtain rfl := CartOpOutcome.ok.inj h2
      simp at hfalse

/-- C9 counterexample: the unknown-barcode failure response hard-codes
`cart_total_items = 0` (cart/routes.py line 39), although the user's cart
holds 2 items at the time the result is produced — the claim that every
result carries the recomputed total is false. -/
theorem c9_counterexample_unknown_barcode :
    (cart_operation c9demoProducts c9demoCarts "u" ⟨"zz", "add", 1⟩).2 =
      CartOpOutcome.ok ⟨false, "Unknown barcode: zz", 0⟩ ∧
    (cart_operation c9demoProducts c9demoCarts "u" ⟨"zz", "add", 1⟩).1 = c9demoCarts ∧
    cartTotalItems (((findCart c9demoCarts "u").getD ⟨"u", []⟩).items) = 2 := by
  decide

/-- Witness for C9 (amended): an insufficient-stock failure reports the
recomputed total (2) of the unchanged cart. -/
theorem c9_response_total_witness :
    (cart_operation c9demoProducts c9demoCarts "u" ⟨"b1", "add", 99⟩).1 = c9demoCarts ∧
    (⟨false, "Insufficient stock. Available: 5, Requested: 99", (2 : ℤ)⟩ :
        CartOpResponse).cart_total_items =
      cartTotalItems (((findCart c9demoCarts "u").getD ⟨"u", []⟩).items) :=
  (c9_response_total c9demoProducts c9demoCarts "u" ⟨"b1", "add", 99⟩).2.2
    ⟨false, "Insufficient stock. Available: 5, Requested: 99", 2⟩
    (by decide) rfl (by decide)

end Nova
